import Mathlib

/-!
# Deterministic gas and fee model keeper of coreum

A shallow embedding of

* `x/deterministicgas/types/gas.go`: the deterministic gas router, the
  deterministic message server and `ctxForDeterministicGas`;
* the fee model keeper accessors exercised by `x/feemodel/keeper/keeper_test.go`,
  with the parameter store `paramSubspaceMock` of that test;
* `integration-tests/chain.go`: `GasLimitByMsgs`, `GasLimitByMultiSendMsgs` and
  `ComputeNeededBalanceFromOptions`;
* `pkg/config/network.go`: the funded accounts of the mainnet config.

Go objects that are shared by pointer (gas meters) live in an explicit heap
of the `World`; a `Context` holds the address of its gas meter, so that two
contexts can share one meter exactly as two `sdk.Context` values do.
Gas amounts (`sdk.Gas = uint64`) and other machine integers are natural
numbers, with `% 2 ^ 64` written out wherever
the Go code computes in `uint64`.
-/

namespace Coreum

/-! ## Gas meters of the host runtime -/

/-- Largest `uint64`, Go's `math.MaxUint64`. -/
def MaxUint64 : Nat := 2 ^ 64 - 1

/-- Panics a gas meter can raise. The payload is the descriptor passed to `ConsumeGas`. -/
inductive GasPanic where
  | ErrorGasOverflow (descriptor : String)
  | ErrorOutOfGas (descriptor : String)
  deriving DecidableEq, Repr

/-- Modelled from the spec: the gas meter of the execution context, which the
host runtime (Cosmos SDK) supplies, `ConsumeGas(amount, description)` and
`GasConsumed()`. A `basic` meter is bounded by `limit`, the meter built by
`sdk.NewGasMeter`; an `infinite` meter has no limit. -/
inductive GasMeter where
  | basic (limit : Nat) (consumed : Nat)
  | infinite (consumed : Nat)
  deriving DecidableEq, Repr

/-- Modelled from the spec: overflow-checked `uint64` addition of the host
runtime; on overflow the sum is reported as `0` with the flag set. -/
def addUint64Overflow (a b : Nat) : Nat × Bool :=
  if MaxUint64 - a < b then (0, true) else (a + b, false)

namespace GasMeter

/-- Modelled from the spec: `sdk.NewGasMeter(limit)`, a bounded meter with
nothing consumed. -/
def NewGasMeter (limit : Nat) : GasMeter := basic limit 0

/-- Modelled from the spec: `GasConsumed()` of the host gas meter. -/
def GasConsumed : GasMeter → Nat
  | basic _ consumed => consumed
  | infinite consumed => consumed

/-- Limit of a bounded meter, `none` for the infinite meter. -/
def Limit : GasMeter → Option Nat
  | basic limit _ => some limit
  | infinite _ => none

/-- Modelled from the spec: `ConsumeGas(amount, descriptor)` of the host gas
meter. The consumed amount is updated first; the call then panics when the
addition overflowed or when the bounded meter ran past its limit. The meter
after the call is returned together with the panic, if any. -/
def ConsumeGas (m : GasMeter) (amount : Nat) (descriptor : String) :
    GasMeter × Option GasPanic :=
  match m with
  | basic limit consumed =>
    let (c, overflow) := addUint64Overflow consumed amount
    if overflow then
      (basic limit MaxUint64, some (GasPanic.ErrorGasOverflow descriptor))
    else if c > limit then
      (basic limit c, some (GasPanic.ErrorOutOfGas descriptor))
    else
      (basic limit c, none)
  | infinite consumed =>
    let (c, overflow) := addUint64Overflow consumed amount
    if overflow then
      (infinite c, some (GasPanic.ErrorGasOverflow descriptor))
    else
      (infinite c, none)

end GasMeter

/-! ## Messages, registry, execution context -/

/-- A message `sdk.Msg`: its Go type (what `%T` prints and what the registry
is keyed by) and its protobuf name (`proto.MessageName`). -/
structure Msg where
  goType : String
  protoName : String
  deriving DecidableEq, Repr

/-- Interface `deterministicgas.DeterministicGasRequirements`: the lookup
`GasRequiredByMessage(msg) (uint64, bool)`. -/
structure DeterministicGasRequirements where
  GasRequiredByMessage : Msg → Nat × Bool

/-- A sample sent to the metrics sink by `metrics.AddSampleWithLabels`: the two
operands of the reported quotient and the `msg_name` label. -/
structure MetricSample where
  key : String
  nondeterministicGas : Nat
  deterministicGas : Nat
  msgName : String
  deriving DecidableEq, Repr

/-- Everything the code mutates: the heap of gas meter objects, the next free
heap address, and the samples received by the metrics sink. -/
structure World where
  meters : Nat → GasMeter
  nextMeter : Nat
  samples : List MetricSample

/-- The execution context `sdk.Context`, passed by value: the address of its
gas meter and the two phase flags. -/
structure Context where
  gasMeter : Nat
  checkTx : Bool
  recheckTx : Bool
  deriving DecidableEq, Repr

namespace Context

/-- Method `ctx.IsCheckTx()`. -/
def IsCheckTx (ctx : Context) : Bool := ctx.checkTx

/-- Method `ctx.IsReCheckTx()`. -/
def IsReCheckTx (ctx : Context) : Bool := ctx.recheckTx

/-- Method `ctx.WithGasMeter(meter)`: a copy of the context pointing to another meter. -/
def WithGasMeter (ctx : Context) (ref : Nat) : Context := { ctx with gasMeter := ref }

end Context

namespace World

/-- The meter object a context points to, `ctx.GasMeter()`. -/
def GasMeter (w : World) (ctx : Context) : Coreum.GasMeter := w.meters ctx.gasMeter

/-- Call `ctx.GasMeter().ConsumeGas(amount, descriptor)`: the pointed meter is
updated in the heap, the panic (if any) is returned. -/
def ConsumeGas (w : World) (ctx : Context) (amount : Nat) (descriptor : String) :
    World × Option GasPanic :=
  let r := (w.GasMeter ctx).ConsumeGas amount descriptor
  ({ w with meters := Function.update w.meters ctx.gasMeter r.1 }, r.2)

/-- Allocation `sdk.NewGasMeter(limit)`: a new meter object at a fresh address. -/
def NewGasMeter (w : World) (limit : Nat) : World × Nat :=
  ({ w with meters := Function.update w.meters w.nextMeter (Coreum.GasMeter.NewGasMeter limit),
            nextMeter := w.nextMeter + 1 }, w.nextMeter)

/-- Call `metrics.AddSampleWithLabels`. -/
def AddSample (w : World) (s : MetricSample) : World :=
  { w with samples := w.samples ++ [s] }

end World

/-! ## `x/deterministicgas/types/gas.go` -/

/-- Constant `fuseGasMultiplier`. -/
def fuseGasMultiplier : Nat := 5

/-- What a call leaves behind: it returned a value or it panicked. -/
inductive Completion (α : Type) where
  | returned (value : α)
  | panicked (p : GasPanic)
  deriving DecidableEq, Repr

/-- The descriptor built by `fmt.Sprintf` in `ctxForDeterministicGas`. -/
def deterministicGasDescriptor (gasRequired : Nat) (msg : Msg) : String :=
  "DeterministicGas (gas required: " ++ toString gasRequired ++ ", message type: " ++
    msg.goType ++ ")"

/-- Function `ctxForDeterministicGas`. Returns the world after the call and
either the triple `(ctx, gasBefore, exists)` or the panic raised by the
charge on the real meter. -/
def ctxForDeterministicGas (w : World) (ctx : Context) (msg : Msg)
    (deterministicGasRequirements : DeterministicGasRequirements) :
    World × Completion (Context × Nat × Bool) :=
  let (gasRequired, found) := deterministicGasRequirements.GasRequiredByMessage msg
  let gasBefore := (w.GasMeter ctx).GasConsumed
  if found then
    match w.ConsumeGas ctx gasRequired (deterministicGasDescriptor gasRequired msg) with
    | (w1, some p) => (w1, Completion.panicked p)
    | (w1, none) =>
      let (w2, ref) := w1.NewGasMeter ((fuseGasMultiplier * gasRequired) % 2 ^ 64)
      (w2, Completion.returned (ctx.WithGasMeter ref, gasBefore, true))
  else
    (w, Completion.returned (ctx, gasBefore, false))

/-- The pair `(*sdk.Result, error)` a handler returns. -/
structure HandlerReturn where
  res : Option String
  err : Option String
  deriving DecidableEq, Repr

/-- A message handler (`sdk.Handler`, or the final `UnaryHandler` of a message
service): run in a world under a context, it leaves a world and either
returns its pair or panics. -/
abbrev Handler := World → Context → Msg → World × Completion HandlerReturn

/-- Method `deterministicGasRouter.handler`: the wrapper installed around
every route handler. -/
def deterministicGasRouter.handler (deterministicGasRequirements : DeterministicGasRequirements)
    (baseHandler : Handler) : Handler :=
  fun w ctx msg =>
    match ctxForDeterministicGas w ctx msg deterministicGasRequirements with
    | (w1, Completion.panicked p) => (w1, Completion.panicked p)
    | (w1, Completion.returned (ctx1, _, _)) => baseHandler w1 ctx1 msg

/-- The `uint64` subtraction `a - b` of Go, which wraps around. -/
def subUint64 (a b : Nat) : Nat := (a + 2 ^ 64 - b % 2 ^ 64) % 2 ^ 64

/-- Function `reportDeterministicGasMetric`. The sample keeps both operands of
the quotient `float32(nondeterministicGas) / float32(deterministicGas)`. -/
def reportDeterministicGasMetric (w : World) (oldCtx newCtx : Context) (gasBefore : Nat)
    (msgName : String) : World :=
  let deterministicGas := subUint64 (w.GasMeter oldCtx).GasConsumed gasBefore
  if deterministicGas = 0 then
    w
  else
    let nondeterministicGas := (w.GasMeter newCtx).GasConsumed
    w.AddSample
      { key := "deterministic_gas_factor",
        nondeterministicGas := nondeterministicGas,
        deterministicGas := deterministicGas,
        msgName := msgName }

/-- The function that `deterministicMsgServer.RegisterService` puts in place
of the final handler of every method of the service: `handler` is the
original final handler, `sdkCtx` the context unwrapped from the request
context, `msg` the request. -/
def deterministicMsgServer.handler (deterministicGasRequirements : DeterministicGasRequirements)
    (handler : Handler) : Handler :=
  fun w sdkCtx msg =>
    match ctxForDeterministicGas w sdkCtx msg deterministicGasRequirements with
    | (w1, Completion.panicked p) => (w1, Completion.panicked p)
    | (w1, Completion.returned (newSDKCtx, gasBefore, isDeterministic)) =>
      match handler w1 newSDKCtx msg with
      | (w2, Completion.panicked p) => (w2, Completion.panicked p)
      | (w2, Completion.returned r) =>
        if r.err = none ∧ isDeterministic = true ∧ newSDKCtx.IsCheckTx = false ∧
            newSDKCtx.IsReCheckTx = false then
          (reportDeterministicGasMetric w2 sdkCtx newSDKCtx gasBefore msg.protoName,
            Completion.returned r)
        else
          (w2, Completion.returned r)

/-! ## Handlers as gas scripts -/

/-- What a base handler does as seen from the gas accounting: the amounts it
passes, in order, to `ctx.GasMeter().ConsumeGas`, and the pair it returns when
none of these calls panics. -/
structure HandlerScript where
  consumes : List Nat
  ret : HandlerReturn
  deriving DecidableEq, Repr

/-- Runs the gas consumptions of a script against the meter of `ctx`; stops at
the first panic. -/
def runConsumes (w : World) (ctx : Context) : List Nat → World × Option GasPanic
  | [] => (w, none)
  | amount :: rest =>
    match w.ConsumeGas ctx amount "handler" with
    | (w1, some p) => (w1, some p)
    | (w1, none) => runConsumes w1 ctx rest

/-- The handler described by a script, which may depend on the context flags
and on the message. -/
def scriptHandler (script : Context → Msg → HandlerScript) : Handler :=
  fun w ctx msg =>
    match runConsumes w ctx (script ctx msg).consumes with
    | (w1, some p) => (w1, Completion.panicked p)
    | (w1, none) => (w1, Completion.returned (script ctx msg).ret)

/-- A handler reaches gas meters only through the context it runs under: every
other meter of the heap is left as it was. -/
def MeterLocal (h : Handler) : Prop :=
  ∀ (w : World) (ctx : Context) (msg : Msg) (ref : Nat),
    ref ≠ ctx.gasMeter → (h w ctx msg).1.meters ref = w.meters ref

/-- The context points to an allocated meter. -/
def World.Allocated (w : World) (ctx : Context) : Prop := ctx.gasMeter < w.nextMeter

instance (w : World) (ctx : Context) : Decidable (w.Allocated ctx) := by
  unfold World.Allocated; infer_instance

/-! ## The registry -/

/-- Modelled from the spec: the deterministic gas registry
`deterministicgas.Config`, whose source file is absent here: a
mapping from the message type to the required gas, and the one `FixedGas`
constant. It is built once and only looked up. -/
structure Config where
  FixedGas : Nat
  gasByMessageType : List (String × Nat)

/-- Modelled from the spec: `GasRequiredByMessage(msg) → (gas, found)`, the
lookup keyed by the concrete type of the message; `found = false` when the type
is absent. -/
def Config.GasRequiredByMessage (c : Config) (msg : Msg) : Nat × Bool :=
  match c.gasByMessageType.lookup msg.goType with
  | some gas => (gas, true)
  | none => (0, false)

/-- A `Config` seen through the interface `DeterministicGasRequirements`. -/
def Config.requirements (c : Config) : DeterministicGasRequirements :=
  { GasRequiredByMessage := c.GasRequiredByMessage }

/-! ## Fee model keeper -/

/-- Modelled from the spec: the fixed-precision decimal of the host runtime
(`sdk.Dec`), 18 decimal places, held as the integer `raw = value * 10 ^ 18`. -/
structure Dec where
  raw : Int
  deriving DecidableEq, Repr

namespace Dec

/-- Number of decimal places of a `Dec`. -/
def Precision : Nat := 18

/-- Modelled from the spec: the decimal of an integer, `sdk.NewDecFromInt`. -/
def NewDecFromInt (i : Int) : Dec := { raw := i * 10 ^ Precision }

/-- Digits of `n`, padded with zeros on the left to `Precision` places. -/
def fractionDigits (n : Nat) : String :=
  let digits := (Nat.toDigits 10 n)
  String.mk (List.replicate (Precision - digits.length) '0' ++ digits)

/-- Modelled from the spec: the decimal string of a `Dec` (its method
`String()`), integer part, a dot and all 18 decimal places (as in
`"10.000000000000000000"`). -/
def toString (d : Dec) : String :=
  let a := d.raw.natAbs
  (if d.raw < 0 then "-" else "") ++ String.mk (Nat.toDigits 10 (a / 10 ^ Precision)) ++ "." ++
    fractionDigits (a % 10 ^ Precision)

end Dec


/-- Modelled from the spec: a price, `sdk.DecCoin`: a denomination and a decimal amount. -/
structure DecCoin where
  Denom : String
  Amount : Dec
  deriving DecidableEq, Repr

/-- Modelled from the spec: `sdk.NewDecCoin(denom, amount)` for an integer amount. -/
def NewDecCoin (denom : String) (amount : Int) : DecCoin :=
  { Denom := denom, Amount := Dec.NewDecFromInt amount }

/-- Modelled from the spec: a value held by the key/value store abstraction of
the host runtime; the byte encoding is the convention of the host and is not
modelled. -/
inductive StoreValue where
  | gas (n : Nat)
  | dec (d : Dec)
  | price (c : DecCoin)
  deriving DecidableEq, Repr

/-- Modelled from the spec: the key/value store abstraction. -/
abbrev KVStore := String → Option StoreValue

/-- Store without any entry. -/
def KVStore.empty : KVStore := fun _ => none

/-- Write of a value under a key. -/
def KVStore.Set (s : KVStore) (key : String) (v : StoreValue) : KVStore :=
  Function.update s key (some v)

/-- Read of the value under a key. -/
def KVStore.Get (s : KVStore) (key : String) : Option StoreValue := s key

/-- Modelled from the spec: the part of the execution context the keeper works
on: the persistent store and the transient store of the current block. -/
structure StoreCtx where
  store : KVStore
  transientStore : KVStore

/-- The context built by `setup` in `keeper_test.go`: both stores are empty. -/
def setup : StoreCtx := { store := KVStore.empty, transientStore := KVStore.empty }

/-- Modelled from the spec: the block boundary, at which the host runtime clears
the transient store and keeps the persistent one. -/
def StoreCtx.nextBlock (ctx : StoreCtx) : StoreCtx :=
  { ctx with transientStore := KVStore.empty }

namespace Keeper

/-- Key of the tracked gas in the transient store. -/
def gasTrackingKey : String := "gasTracking"

/-- Key of the short EMA in the persistent store. -/
def shortEMAGasKey : String := "shortEMAGas"

/-- Key of the long EMA in the persistent store. -/
def longEMAGasKey : String := "longEMAGas"

/-- Key of the minimum gas price in the persistent store. -/
def minGasPriceKey : String := "minGasPrice"

/-- Modelled from the spec: `TrackedGas(ctx) uint64` returns the running total
of the current block, an unsigned 64-bit integer, 0 when nothing was tracked.
The source of the keeper is absent here; its test `keeper_test.go` is
present. -/
def TrackedGas (ctx : StoreCtx) : Nat :=
  match ctx.transientStore.Get gasTrackingKey with
  | some (StoreValue.gas n) => n % 2 ^ 64
  | _ => 0

/-- Modelled from the spec: `TrackGas(amount)` adds `amount` to the tracked
total of the current block; the total is a `uint64`, so the addition is the
64-bit one. -/
def TrackGas (ctx : StoreCtx) (amount : Nat) : StoreCtx :=
  let total := (TrackedGas ctx + amount) % 2 ^ 64
  { ctx with transientStore := ctx.transientStore.Set gasTrackingKey (StoreValue.gas total) }

/-- Modelled from the spec: `GetShortEMAGas`, a plain read of the persisted
value, 0 when there is no prior state. -/
def GetShortEMAGas (ctx : StoreCtx) : Dec :=
  match ctx.store.Get shortEMAGasKey with
  | some (StoreValue.dec d) => d
  | _ => { raw := 0 }

/-- Modelled from the spec: `SetShortEMAGas`, a plain write of the value. -/
def SetShortEMAGas (ctx : StoreCtx) (emaGas : Dec) : StoreCtx :=
  { ctx with store := ctx.store.Set shortEMAGasKey (StoreValue.dec emaGas) }

/-- Modelled from the spec: `GetLongEMAGas`, a plain read of the persisted
value, 0 when there is no prior state. -/
def GetLongEMAGas (ctx : StoreCtx) : Dec :=
  match ctx.store.Get longEMAGasKey with
  | some (StoreValue.dec d) => d
  | _ => { raw := 0 }

/-- Modelled from the spec: `SetLongEMAGas`, a plain write of the value. -/
def SetLongEMAGas (ctx : StoreCtx) (emaGas : Dec) : StoreCtx :=
  { ctx with store := ctx.store.Set longEMAGasKey (StoreValue.dec emaGas) }

/-- Modelled from the spec: `GetMinGasPrice(ctx) Price`, the persisted minimum
gas price. The spec does not say what is read before the first write; the
empty price is returned then. -/
def GetMinGasPrice (ctx : StoreCtx) : DecCoin :=
  match ctx.store.Get minGasPriceKey with
  | some (StoreValue.price c) => c
  | _ => { Denom := "", Amount := { raw := 0 } }

/-- Modelled from the spec: `SetMinGasPrice(ctx, Price)`, which persists the price. -/
def SetMinGasPrice (ctx : StoreCtx) (minGasPrice : DecCoin) : StoreCtx :=
  { ctx with store := ctx.store.Set minGasPriceKey (StoreValue.price minGasPrice) }

end Keeper

/-! ## Concrete inputs -/

/-- A registry with `FixedGas = 50`, one message type that requires 1000 gas and
one that requires none. -/
def exampleConfig : Config :=
  { FixedGas := 50, gasByMessageType := [("*types.MsgSend", 1000), ("*types.MsgFree", 0)] }

/-- A registry whose requirement is so large that five times it leaves 64 bits. -/
def hugeConfig : Config :=
  { FixedGas := 50, gasByMessageType := [("*types.MsgSend", 2 ^ 62)] }

/-- A message of the type registered with 1000 gas. -/
def msgSend : Msg := { goType := "*types.MsgSend", protoName := "cosmos.bank.v1beta1.MsgSend" }

/-- A message of the type registered with 0 gas. -/
def msgFree : Msg := { goType := "*types.MsgFree", protoName := "coreum.example.MsgFree" }

/-- A message whose type is not in the registry. -/
def msgUnknown : Msg := { goType := "*types.MsgUnknown", protoName := "coreum.example.MsgUnknown" }

/-- A world with one allocated meter, at address 0, bounded by 100000 with 7 gas
already consumed, and an empty metrics sink. -/
def exampleWorld : World :=
  { meters := fun _ => GasMeter.basic 100000 7, nextMeter := 1, samples := [] }

/-- A world whose only meter is the infinite one. -/
def infiniteWorld : World :=
  { meters := fun _ => GasMeter.infinite 0, nextMeter := 1, samples := [] }

/-- A context of the DeliverTx phase pointing to the meter at address 0. -/
def exampleCtx : Context := { gasMeter := 0, checkTx := false, recheckTx := false }

/-- A handler that consumes 300 and then 200 gas and returns a result. -/
def cheapScript : Context → Msg → HandlerScript :=
  fun _ _ => { consumes := [300, 200], ret := { res := some "ok", err := none } }

/-- A handler that consumes 3000 and then 1500 gas and returns a result. -/
def costlyScript : Context → Msg → HandlerScript :=
  fun _ _ => { consumes := [3000, 1500], ret := { res := some "ok", err := none } }

/-- A handler that tries to consume 3000 and then 2500 gas, more than 5 * 1000. -/
def runawayScript : Context → Msg → HandlerScript :=
  fun _ _ => { consumes := [3000, 2500], ret := { res := some "ok", err := none } }

/-- A handler that consumes no gas and returns a result. -/
def idleScript : Context → Msg → HandlerScript :=
  fun _ _ => { consumes := [], ret := { res := some "ok", err := none } }

/-- A handler that consumes 10 gas and returns an error. -/
def failingScript : Context → Msg → HandlerScript :=
  fun _ _ => { consumes := [10], ret := { res := none, err := some "insufficient funds" } }

/-! ## `integration-tests/chain.go` -/

/-- What a call of the test chain helpers leaves behind: a value, or the panic
raised with an error message. -/
inductive Outcome (α : Type) where
  | value (v : α)
  | panic (message : String)
  deriving DecidableEq, Repr

/-- Type `BalancesOptions`. A nil `GasPrice` or `Amount` is `none`. -/
structure BalancesOptions where
  Messages : List Msg
  NondeterministicMessagesGas : Nat
  GasPrice : Option Dec
  Amount : Option Int

/-- Type `ChainContext`, as far as the gas helpers read it: the deterministic gas
config and `NetworkConfig.Fee.FeeModel.Params().InitialGasPrice`. -/
structure ChainContext where
  DeterministicGasConfig : Config
  InitialGasPrice : Dec

namespace ChainContext

/-- The loop of `GasLimitByMsgs`: `totalGasRequired` is a `uint64`. -/
def gasLimitLoop (c : ChainContext) : List Msg → Nat → Outcome Nat
  | [], totalGasRequired => Outcome.value totalGasRequired
  | msg :: msgs, totalGasRequired =>
    let (msgGas, found) := c.DeterministicGasConfig.GasRequiredByMessage msg
    if found = false then
      Outcome.panic ("unsuported message type for deterministic gas: " ++ msg.goType)
    else
      gasLimitLoop c msgs
        ((totalGasRequired + (msgGas + c.DeterministicGasConfig.FixedGas) % 2 ^ 64) % 2 ^ 64)

/-- Method `ChainContext.GasLimitByMsgs`. -/
def GasLimitByMsgs (c : ChainContext) (msgs : List Msg) : Outcome Nat :=
  gasLimitLoop c msgs 0

/-- The loop of `GasLimitByMultiSendMsgs`. -/
def multiSendLoop (c : ChainContext) : List Msg → Nat → Outcome Nat
  | [], totalGasRequired => Outcome.value totalGasRequired
  | msg :: msgs, totalGasRequired =>
    let (msgGas, found) := c.DeterministicGasConfig.GasRequiredByMessage msg
    if found = false then
      Outcome.panic ("unsuported message type for deterministic gas: " ++ msg.goType)
    else
      multiSendLoop c msgs ((totalGasRequired + msgGas) % 2 ^ 64)

/-- Method `ChainContext.GasLimitByMultiSendMsgs`. -/
def GasLimitByMultiSendMsgs (c : ChainContext) (msgs : List Msg) : Outcome Nat :=
  match multiSendLoop c msgs 0 with
  | Outcome.value totalGasRequired =>
    Outcome.value ((totalGasRequired + c.DeterministicGasConfig.FixedGas) % 2 ^ 64)
  | Outcome.panic message => Outcome.panic message

end ChainContext

/-- The gas the registry requires for a message (0 when the type is absent). -/
def Config.requiredGas (c : Config) (msg : Msg) : Nat := (c.GasRequiredByMessage msg).1

/-- Every message of the list has its type in the registry. -/
def Config.AllRegistered (c : Config) (msgs : List Msg) : Prop :=
  ∀ msg ∈ msgs, (c.GasRequiredByMessage msg).2 = true

instance (c : Config) (msgs : List Msg) : Decidable (c.AllRegistered msgs) := by
  unfold Config.AllRegistered; infer_instance

/-- A chain context over the example registry, with the gas price 0.0625. -/
def exampleChain : ChainContext :=
  { DeterministicGasConfig := exampleConfig, InitialGasPrice := { raw := 62500000000000000 } }

/-- A chain context over the registry with the requirement `2 ^ 62`. -/
def hugeChain : ChainContext :=
  { DeterministicGasConfig := hugeConfig, InitialGasPrice := { raw := 62500000000000000 } }

/-- The charges of the interceptor for the messages of one transaction:
`ctxForDeterministicGas` applied once to each message, in order, under the
context of the transaction; it stops at the first panic. -/
def chargeEach (reqs : DeterministicGasRequirements) (ctx : Context) :
    World → List Msg → World × Option GasPanic
  | w, [] => (w, none)
  | w, msg :: msgs =>
    match ctxForDeterministicGas w ctx msg reqs with
    | (w1, Completion.panicked p) => (w1, some p)
    | (w1, Completion.returned _) => chargeEach reqs ctx w1 msgs

/-- A world whose meter at address 0 is the meter of a transaction with the gas
limit 2150 and nothing consumed. -/
def txWorld : World :=
  { meters := fun _ => GasMeter.NewGasMeter 2150, nextMeter := 1, samples := [] }

/-! ## `pkg/config/network.go` -/

/-- A coin `sdk.Coin`: a denomination and an amount. -/
structure Coin where
  Denom : String
  Amount : Int
  deriving DecidableEq, Repr

/-- Type `FundedAccount`: an address and its balances. -/
structure FundedAccount where
  Address : String
  Balances : List Coin
  deriving DecidableEq, Repr

/-- Variable `mainGenesisValidatorCreatorBalance` of `init`; `denomMain` stands
for the constant `constant.DenomMain`. -/
def mainGenesisValidatorCreatorBalance (denomMain : String) : List Coin :=
  [{ Denom := denomMain, Amount := 25000000000 }]

/-- Variable `mainBridgeBalance` of `init`. -/
def mainBridgeBalance (denomMain : String) : List Coin :=
  [{ Denom := denomMain, Amount := 700000000000 }]

/-- Variable `mainFoundationZeroInitialBalance` of `init`. -/
def mainFoundationZeroInitialBalance (denomMain : String) : List Coin :=
  [{ Denom := denomMain, Amount := 99175000000000 }]

/-- Variable `mainFoundationOtherInitialBalance` of `init`. -/
def mainFoundationOtherInitialBalance (denomMain : String) : List Coin :=
  [{ Denom := denomMain, Amount := 100000000000000 }]

/-- Field `FundedAccounts` of `networkConfigs[constant.ChainIDMain]`. -/
def mainFundedAccounts (denomMain : String) : List FundedAccount :=
  [ { Address := "core1d5wqdp322zn5jyn5mszrrstg2xuq35xyrhsc9f",
      Balances := mainGenesisValidatorCreatorBalance denomMain },
    { Address := "core15cpygjlf7pgfnqlc8uz9eryspwd0pwk3xrup8h",
      Balances := mainGenesisValidatorCreatorBalance denomMain },
    { Address := "core1zmhfe2hh4qmg54gpsyw8n35gayx3a85mqlfzgk",
      Balances := mainGenesisValidatorCreatorBalance denomMain },
    { Address := "core1hsmhywnkehyyv8muzswhdumzztae4hq4k3dj8p",
      Balances := mainGenesisValidatorCreatorBalance denomMain },
    { Address := "core1nc84mnnqshaln65vsykr63m605sc4kvdwnkgg9",
      Balances := mainGenesisValidatorCreatorBalance denomMain },
    { Address := "core1ssh2d2ft6hzrgn9z6k7mmsamy2hfpxl9y8re5x",
      Balances := mainBridgeBalance denomMain },
    { Address := "core13xmyzhvl02xpz0pu8v9mqalsvpyy7wvs9q5f90",
      Balances := mainFoundationZeroInitialBalance denomMain },
    { Address := "core14g6wpzdx8g9txvxxu3fl7fplal9y5ztx34ac5p",
      Balances := mainFoundationOtherInitialBalance denomMain },
    { Address := "core1zn2ns3ls68jlsv5dgkuz0rxsxt5fhk7n9cfl23",
      Balances := mainFoundationOtherInitialBalance denomMain },
    { Address := "core1p4gsfkmqm0uxua65phteqwnmu39fwjvtspfkcj",
      Balances := mainFoundationOtherInitialBalance denomMain },
    { Address := "core1rddqzjzy4f5frxkhds3sux0m03encqtla3ayu9",
      Balances := mainFoundationOtherInitialBalance denomMain } ]

/-- Total amount funded to a list of accounts. -/
def totalFunded (accounts : List FundedAccount) : Int :=
  (accounts.map (fun account => (account.Balances.map Coin.Amount).sum)).sum

/-- Number of base units in one CORE. -/
def baseUnitsPerCore : Int := 10 ^ 6

/-- The quotient reported by a sample, as an exact ratio (before the conversion
to `float32`). -/
def MetricSample.ratio (s : MetricSample) : ℚ :=
  (s.nondeterministicGas : ℚ) / (s.deterministicGas : ℚ)

/-- The sample of a message of requirement 1000 whose handler consumed 500 gas. -/
def exampleSample : MetricSample :=
  { key := "deterministic_gas_factor", nondeterministicGas := 500, deterministicGas := 1000,
    msgName := "cosmos.bank.v1beta1.MsgSend" }

/-! ## Decimal arithmetic of the host runtime, and the needed balance -/

/-- Modelled from the spec: rounding of the host decimal, `x / 10 ^ 18` rounded
to the nearest integer, a half to the even one (`chopPrecisionAndRound`). -/
def chopPrecisionAndRound (x : Int) : Int :=
  let quo := x.natAbs / 10 ^ Dec.Precision
  let rem := x.natAbs % 10 ^ Dec.Precision
  let rounded : Nat :=
    if rem = 0 then quo
    else if rem < 5 * 10 ^ (Dec.Precision - 1) then quo
    else if 5 * 10 ^ (Dec.Precision - 1) < rem then quo + 1
    else if quo % 2 = 0 then quo
    else quo + 1
  if x < 0 then -(rounded : Int) else (rounded : Int)

/-- Modelled from the spec: the decimal of an integer, `sdk.NewDec`. -/
def Dec.NewDec (i : Int) : Dec := { raw := i * 10 ^ Dec.Precision }

/-- Bit bound of the integers of the host runtime (`sdk.Int`). -/
def maxBitLen : Nat := 256

/-- Bit bound of the decimals of the host runtime (`sdk.Dec`), `maxBitLen + 59`. -/
def maxDecBitLen : Nat := 315

/-- The number `2 ^ maxBitLen`, written out: an integer has more than `maxBitLen`
bits exactly when its absolute value reaches it. -/
def intOverflowBound : Nat := 115792089237316195423570985008687907853269984665640564039457584007913129639936

/-- The number `2 ^ maxDecBitLen`, written out. -/
def decOverflowBound : Nat :=
  66749594872528440074844428317798503581334516323645399060845050244444366430645017188217565216768

/-- Sequencing of calls that may panic. -/
def Outcome.bind {α β : Type} (o : Outcome α) (f : α → Outcome β) : Outcome β :=
  match o with
  | Outcome.value v => f v
  | Outcome.panic message => Outcome.panic message

/-- Modelled from the spec: product of two decimals, rounded to 18 places
(`Dec.Mul`); it panics when the bit length of the result exceeds `maxDecBitLen`. -/
def Dec.Mul (a b : Dec) : Outcome Dec :=
  let chopped := chopPrecisionAndRound (a.raw * b.raw)
  if decOverflowBound ≤ chopped.natAbs then Outcome.panic "Int overflow"
  else Outcome.value { raw := chopped }

/-- Modelled from the spec: an integer of the host runtime from a big integer
(`sdk.NewIntFromBigInt`); it panics when the bit length exceeds `maxBitLen`. -/
def NewIntFromBigInt (i : Int) : Outcome Int :=
  if intOverflowBound ≤ i.natAbs then Outcome.panic "NewIntFromBigInt() out of bound"
  else Outcome.value i

/-- Modelled from the spec: sum of two integers of the host runtime (`Int.Add`
of `sdk.Int`); it panics when the bit length of the sum exceeds `maxBitLen`. -/
def IntAdd (a b : Int) : Outcome Int :=
  if intOverflowBound ≤ (a + b).natAbs then Outcome.panic "Int overflow"
  else Outcome.value (a + b)

/-- Modelled from the spec: the decimal rounded up to an integer (`Dec.Ceil`),
computed from the truncated quotient and remainder. -/
def Dec.Ceil (d : Dec) : Dec :=
  let quo := d.raw.tdiv (10 ^ Dec.Precision)
  let rem := d.raw.tmod (10 ^ Dec.Precision)
  if rem = 0 then Dec.NewDec quo
  else if rem < 0 then Dec.NewDec quo
  else Dec.NewDec (quo + 1)

/-- Modelled from the spec: the decimal rounded to an integer (`Dec.RoundInt`),
an integer of the host runtime. -/
def Dec.RoundInt (d : Dec) : Outcome Int := NewIntFromBigInt (chopPrecisionAndRound d.raw)

/-- The value of a decimal as a rational number. -/
def Dec.toRat (d : Dec) : ℚ := (d.raw : ℚ) / ((10 ^ Dec.Precision : Nat) : ℚ)

/-- The Go conversion `int64(gas)` of a `uint64`. -/
def int64OfUint64 (gas : Nat) : Int :=
  if gas % 2 ^ 64 < 2 ^ 63 then ((gas % 2 ^ 64 : Nat) : Int)
  else ((gas % 2 ^ 64 : Nat) : Int) - 2 ^ 64

/-- The expression `GasPrice.Mul(sdk.NewDec(int64(gas))).Ceil().RoundInt()` of
`ComputeNeededBalanceFromOptions`. -/
def feeAmount (gasPrice : Dec) (gas : Nat) : Outcome Int :=
  (gasPrice.Mul (Dec.NewDec (int64OfUint64 gas))).bind (fun product => product.Ceil.RoundInt)

/-- The integer ceiling of gas price times gas, `ceil(GasPrice * gas)`, computed
on the 18-place representation of the price. -/
def ceilFee (gasPrice : Dec) (gas : Nat) : Int :=
  -((-(gasPrice.raw * (gas : Int))) / 10 ^ 18)

namespace ChainContext

/-- The loop of `ComputeNeededBalanceFromOptions` over `options.Messages`. -/
def neededBalanceLoop (c : ChainContext) (gasPrice : Dec) : List Msg → Int → Outcome Int
  | [], totalAmount => Outcome.value totalAmount
  | msg :: msgs, totalAmount =>
    (c.GasLimitByMsgs [msg]).bind (fun gas =>
      (feeAmount gasPrice gas).bind (fun amt =>
        (IntAdd totalAmount amt).bind (fun total => neededBalanceLoop c gasPrice msgs total)))

/-- The gas price `ComputeNeededBalanceFromOptions` works with: the one of the
options, or `InitialGasPrice` of the fee model when that is nil. -/
def effectiveGasPrice (c : ChainContext) (options : BalancesOptions) : Dec :=
  match options.GasPrice with
  | none => c.InitialGasPrice
  | some gasPrice => gasPrice

/-- The amount `ComputeNeededBalanceFromOptions` works with: the one of the
options, or zero when that is nil. -/
def effectiveAmount (options : BalancesOptions) : Int :=
  match options.Amount with
  | none => 0
  | some amount => amount

/-- Method `ChainContext.ComputeNeededBalanceFromOptions`. -/
def ComputeNeededBalanceFromOptions (c : ChainContext) (options : BalancesOptions) :
    Outcome Int :=
  (neededBalanceLoop c (effectiveGasPrice c options) options.Messages 0).bind
    (fun totalAmount =>
      (feeAmount (effectiveGasPrice c options) options.NondeterministicMessagesGas).bind
        (fun amt =>
          (IntAdd totalAmount amt).bind (fun total => IntAdd total (effectiveAmount options))))

/-- The gas limit `GasLimitByMsgs` gives to one registered message alone. -/
def perMsgLimit (c : ChainContext) (msg : Msg) : Nat :=
  (c.DeterministicGasConfig.requiredGas msg + c.DeterministicGasConfig.FixedGas) % 2 ^ 64

end ChainContext

/-- A registry whose one requirement makes the gas limit of a single message
`2 ^ 63 - 1`. -/
def wrapConfig : Config :=
  { FixedGas := 50, gasByMessageType := [("*types.MsgSend", 2 ^ 63 - 51)] }

/-- A chain context over `wrapConfig`. -/
def wrapChain : ChainContext :=
  { DeterministicGasConfig := wrapConfig, InitialGasPrice := { raw := 62500000000000000 } }

/-- Options with two registered messages, 10 gas of other messages, the default
gas price and the amount 5. -/
def exampleOptions : BalancesOptions :=
  { Messages := [msgSend, msgFree], NondeterministicMessagesGas := 10, GasPrice := none,
    Amount := some 5 }

/-- Options without messages, with `2 ^ 63` gas of other messages and the gas price 1. -/
def hugeGasOptions : BalancesOptions :=
  { Messages := [], NondeterministicMessagesGas := 2 ^ 63,
    GasPrice := some { raw := 1000000000000000000 }, Amount := none }

/-- Options with one message and the gas price `10 ^ 70`. -/
def hugePriceOptions : BalancesOptions :=
  { Messages := [msgSend], NondeterministicMessagesGas := 0,
    GasPrice := some { raw := 10000000000000000000000000000000000000000000000000000000000000000000000000000000000000000 },
    Amount := none }

/-- Options with three messages of the type registered in `wrapConfig` and the
gas price 1. -/
def wrapOptions : BalancesOptions :=
  { Messages := [msgSend, msgSend, msgSend], NondeterministicMessagesGas := 0,
    GasPrice := some { raw := 1000000000000000000 }, Amount := none }

/-! ## Fee model parameters and the parameter store of `keeper_test.go` -/

/-- Modelled from the spec: the fee model parameters (`ModelParams`), four
decimals and three unsigned integers. -/
structure ModelParams where
  InitialGasPrice : Dec
  MaxGasPriceMultiplier : Dec
  MaxDiscount : Dec
  EscalationStartFraction : Dec
  MaxBlockGas : Nat
  ShortEmaBlockLength : Nat
  LongEmaBlockLength : Nat
  deriving DecidableEq, Repr

/-- Modelled from the spec: the parameters of the fee model module (`types.Params`). -/
structure Params where
  Model : ModelParams
  deriving DecidableEq, Repr

/-- The value behind the pointer `pair.Value` of a parameter pair. -/
inductive ParamValue where
  | dec (d : Dec)
  | uint (n : Nat)
  deriving DecidableEq, Repr

/-- A pair of `ps.ParamSetPairs()`: the key and the pointed value. -/
structure ParamSetPair where
  Key : String
  Value : ParamValue
  deriving DecidableEq, Repr

/-- The double quote character of JSON strings. -/
def quoteChar : Char := Char.ofNat 34

/-- Value of a decimal digit character. -/
def digitValue (c : Char) : Option Nat :=
  if 48 ≤ c.toNat ∧ c.toNat ≤ 57 then some (c.toNat - 48) else none

/-- Reads decimal digits onto an accumulator; fails on any other character. -/
def parseDigits : List Char → Nat → Option Nat
  | [], acc => some acc
  | c :: cs, acc =>
    match digitValue c with
    | none => none
    | some d => parseDigits cs (acc * 10 + d)

/-- Reads a non-empty string of decimal digits. -/
def parseNat (cs : List Char) : Option Nat :=
  if cs = [] then none else parseDigits cs 0

/-- Splits at the first dot: the part before it, and the part after it when
there is a dot. -/
def splitAtDot : List Char → List Char × Option (List Char)
  | [] => ([], none)
  | c :: cs =>
    if c = '.' then ([], some cs)
    else ((c :: (splitAtDot cs).1), (splitAtDot cs).2)

/-- Modelled from the spec: the decimal read from its string (`sdk.NewDecFromStr`):
an optional minus sign, digits, and optionally a dot followed by 1 to 18
digits, which are padded with zeros to 18 places. -/
def Dec.fromString (s : String) : Option Dec :=
  let neg := s.data.head? = some '-'
  let body := if neg then s.data.tail else s.data
  let combined : Option (List Char) :=
    match splitAtDot body with
    | (intStr, none) => some (intStr ++ List.replicate Dec.Precision '0')
    | (intStr, some fracStr) =>
      if fracStr.length = 0 ∨ intStr.length = 0 ∨ Dec.Precision < fracStr.length then none
      else some (intStr ++ fracStr ++ List.replicate (Dec.Precision - fracStr.length) '0')
  match combined with
  | none => none
  | some digits =>
    match parseNat digits with
    | none => none
    | some n => some { raw := if neg then -(n : Int) else (n : Int) }

namespace ParamValue

/-- The JSON of a parameter value (`json.Marshal(pair.Value)`): a decimal is a
JSON string holding its decimal string, an unsigned integer a JSON number. -/
def marshalJSON : ParamValue → String
  | dec d => String.mk ([quoteChar] ++ d.toString.data ++ [quoteChar])
  | uint n => String.mk (Nat.toDigits 10 n)

/-- Decoding of JSON into the value behind a pointer
(`json.Unmarshal(bz, pair.Value)`): the type of the target decides what is
read. -/
def unmarshalJSON (target : ParamValue) (bz : String) : Option ParamValue :=
  match target with
  | dec _ =>
    match bz.data with
    | [] => none
    | c :: rest =>
      if c = quoteChar ∧ rest.getLast? = some quoteChar then
        (Dec.fromString (String.mk rest.dropLast)).map dec
      else none
  | uint _ => (parseNat bz.data).map uint

end ParamValue

/-- Type `paramSubspaceMock` of `keeper_test.go`: the map from keys to JSON bytes. -/
structure paramSubspaceMock where
  params : String → Option String

/-- Function `newParamSubspaceMock`. -/
def newParamSubspaceMock : paramSubspaceMock := { params := fun _ => none }

namespace paramSubspaceMock

/-- Method `paramSubspaceMock.SetParamSet`: every pair is marshalled into the map. -/
def SetParamSet (psm : paramSubspaceMock) : List ParamSetPair → paramSubspaceMock
  | [] => psm
  | pair :: pairs =>
    SetParamSet { params := Function.update psm.params pair.Key (some pair.Value.marshalJSON) }
      pairs

/-- Method `paramSubspaceMock.GetParamSet`: every pair is unmarshalled from the
map into its value; `none` stands for the panic of `must.OK` on a decoding
error (an absent key gives no bytes to decode). -/
def GetParamSet (psm : paramSubspaceMock) : List ParamSetPair → Option (List ParamSetPair)
  | [] => some []
  | pair :: pairs =>
    match pair.Value.unmarshalJSON ((psm.params pair.Key).getD "") with
    | none => none
    | some v =>
      match GetParamSet psm pairs with
      | none => none
      | some rest => some ({ Key := pair.Key, Value := v } :: rest)

end paramSubspaceMock

namespace Params

/-- Modelled from the spec: `ParamSetPairs`, one pair for every field of the
parameters. -/
def ParamSetPairs (p : Params) : List ParamSetPair :=
  [ { Key := "InitialGasPrice", Value := ParamValue.dec p.Model.InitialGasPrice },
    { Key := "MaxGasPriceMultiplier", Value := ParamValue.dec p.Model.MaxGasPriceMultiplier },
    { Key := "MaxDiscount", Value := ParamValue.dec p.Model.MaxDiscount },
    { Key := "EscalationStartFraction",
      Value := ParamValue.dec p.Model.EscalationStartFraction },
    { Key := "MaxBlockGas", Value := ParamValue.uint p.Model.MaxBlockGas },
    { Key := "ShortEmaBlockLength", Value := ParamValue.uint p.Model.ShortEmaBlockLength },
    { Key := "LongEmaBlockLength", Value := ParamValue.uint p.Model.LongEmaBlockLength } ]

/-- The parameters whose fields are the values of the pairs. -/
def fromPairs : List ParamSetPair → Option Params
  | [ { Key := _, Value := ParamValue.dec a }, { Key := _, Value := ParamValue.dec b },
      { Key := _, Value := ParamValue.dec c }, { Key := _, Value := ParamValue.dec d },
      { Key := _, Value := ParamValue.uint e }, { Key := _, Value := ParamValue.uint f },
      { Key := _, Value := ParamValue.uint g } ] =>
    some { Model := { InitialGasPrice := a, MaxGasPriceMultiplier := b, MaxDiscount := c,
                      EscalationStartFraction := d, MaxBlockGas := e,
                      ShortEmaBlockLength := f, LongEmaBlockLength := g } }
  | _ => none

/-- The zero value of `Params`, the variable `GetParams` decodes into. -/
def zero : Params :=
  { Model := { InitialGasPrice := { raw := 0 }, MaxGasPriceMultiplier := { raw := 0 },
               MaxDiscount := { raw := 0 }, EscalationStartFraction := { raw := 0 },
               MaxBlockGas := 0, ShortEmaBlockLength := 0, LongEmaBlockLength := 0 } }

end Params

/-- Modelled from the spec: `SetParams(ctx, Params)`, which hands the parameters
to the parameter store. -/
def Keeper.SetParams (psm : paramSubspaceMock) (params : Params) : paramSubspaceMock :=
  psm.SetParamSet params.ParamSetPairs

/-- Modelled from the spec: `GetParams(ctx) Params`, which reads the parameters
from the parameter store. -/
def Keeper.GetParams (psm : paramSubspaceMock) : Option Params :=
  match psm.GetParamSet Params.zero.ParamSetPairs with
  | none => none
  | some pairs => Params.fromPairs pairs

/-- Parameters with the decimals 0.0625, 1000, 0.5 and 0.8 and the integers
50000000, 50 and 1000. -/
def exampleParams : Params :=
  { Model := { InitialGasPrice := { raw := 62500000000000000 },
               MaxGasPriceMultiplier := { raw := 1000000000000000000000 },
               MaxDiscount := { raw := 500000000000000000 },
               EscalationStartFraction := { raw := 800000000000000000 },
               MaxBlockGas := 50000000, ShortEmaBlockLength := 50,
               LongEmaBlockLength := 1000 } }

/-! ## Lemmas on gas meters and on `ctxForDeterministicGas` -/


theorem addUint64Overflow_fit (a b : Nat) (h : a + b ≤ MaxUint64) :
    addUint64Overflow a b = (a + b, false) := by
  unfold addUint64Overflow
  have : ¬ (MaxUint64 - a < b) := by omega
  simp [this]

theorem GasMeter.ConsumeGas_consumed (m : GasMeter) (amount : Nat) (d : String)
    (h : m.GasConsumed + amount ≤ MaxUint64) :
    (m.ConsumeGas amount d).1.GasConsumed = m.GasConsumed + amount := by
  cases m with
  | basic limit consumed =>
    simp only [GasMeter.GasConsumed] at h
    simp only [GasMeter.ConsumeGas, addUint64Overflow_fit _ _ h]
    by_cases hl : consumed + amount > limit <;> simp [hl, GasMeter.GasConsumed]
  | infinite consumed =>
    simp only [GasMeter.GasConsumed] at h
    simp [GasMeter.ConsumeGas, addUint64Overflow_fit _ _ h, GasMeter.GasConsumed]

/-- A charge that fits in 64 bits and stays within the limit does not panic. -/
theorem GasMeter.ConsumeGas_ok (m : GasMeter) (amount : Nat) (d : String)
    (h : m.GasConsumed + amount ≤ MaxUint64)
    (hl : ∀ limit, m.Limit = some limit → m.GasConsumed + amount ≤ limit) :
    (m.ConsumeGas amount d).2 = none := by
  cases m with
  | basic limit consumed =>
    simp only [GasMeter.GasConsumed] at h
    have hl2 : ¬ (consumed + amount > limit) := by
      have := hl limit rfl
      simp only [GasMeter.GasConsumed] at this
      omega
    simp [GasMeter.ConsumeGas, addUint64Overflow_fit _ _ h, hl2]
  | infinite consumed =>
    simp only [GasMeter.GasConsumed] at h
    simp [GasMeter.ConsumeGas, addUint64Overflow_fit _ _ h]

theorem World.ConsumeGas_meters_self (w : World) (ctx : Context) (amount : Nat) (d : String) :
    (w.ConsumeGas ctx amount d).1.meters ctx.gasMeter = ((w.GasMeter ctx).ConsumeGas amount d).1 := by
  simp [World.ConsumeGas]

theorem World.ConsumeGas_meters_other (w : World) (ctx : Context) (amount : Nat) (d : String)
    (ref : Nat) (h : ref ≠ ctx.gasMeter) :
    (w.ConsumeGas ctx amount d).1.meters ref = w.meters ref := by
  simp [World.ConsumeGas, Function.update_noteq h]

theorem World.ConsumeGas_nextMeter (w : World) (ctx : Context) (amount : Nat) (d : String) :
    (w.ConsumeGas ctx amount d).1.nextMeter = w.nextMeter := by
  simp [World.ConsumeGas]

theorem World.ConsumeGas_samples (w : World) (ctx : Context) (amount : Nat) (d : String) :
    (w.ConsumeGas ctx amount d).1.samples = w.samples := by
  simp [World.ConsumeGas]

theorem World.ConsumeGas_snd (w : World) (ctx : Context) (amount : Nat) (d : String) :
    (w.ConsumeGas ctx amount d).2 = ((w.GasMeter ctx).ConsumeGas amount d).2 := by
  simp [World.ConsumeGas]

/-- Unfolding of `ctxForDeterministicGas` for a registered message. -/
theorem ctxForDeterministicGas_registered (w : World) (ctx : Context) (msg : Msg)
    (reqs : DeterministicGasRequirements) (gasRequired : Nat)
    (hreg : reqs.GasRequiredByMessage msg = (gasRequired, true)) :
    ctxForDeterministicGas w ctx msg reqs =
      match (w.ConsumeGas ctx gasRequired (deterministicGasDescriptor gasRequired msg)).2 with
      | some p => ((w.ConsumeGas ctx gasRequired (deterministicGasDescriptor gasRequired msg)).1,
          Completion.panicked p)
      | none =>
        (((w.ConsumeGas ctx gasRequired (deterministicGasDescriptor gasRequired msg)).1.NewGasMeter
            ((fuseGasMultiplier * gasRequired) % 2 ^ 64)).1,
          Completion.returned (ctx.WithGasMeter w.nextMeter,
            (w.GasMeter ctx).GasConsumed, true)) := by
  unfold ctxForDeterministicGas
  rw [hreg]
  simp only [if_true]
  rcases hc : w.ConsumeGas ctx gasRequired (deterministicGasDescriptor gasRequired msg) with ⟨w1, _ | p⟩
  · have : w1.nextMeter = w.nextMeter := by
      have := World.ConsumeGas_nextMeter w ctx gasRequired (deterministicGasDescriptor gasRequired msg)
      rw [hc] at this; exact this
    simp [World.NewGasMeter, this]
  · simp

/-- Unfolding of `ctxForDeterministicGas` for a message that is not registered. -/
theorem ctxForDeterministicGas_unregistered (w : World) (ctx : Context) (msg : Msg)
    (reqs : DeterministicGasRequirements)
    (hreg : (reqs.GasRequiredByMessage msg).2 = false) :
    ctxForDeterministicGas w ctx msg reqs =
      (w, Completion.returned (ctx, (w.GasMeter ctx).GasConsumed, false)) := by
  unfold ctxForDeterministicGas
  rcases h : reqs.GasRequiredByMessage msg with ⟨g, f⟩
  rw [h] at hreg
  simp at hreg
  simp [hreg]

/-- After `ctxForDeterministicGas` on a registered message the real meter is the
meter left by the charge, whether the charge panicked or not. -/
theorem ctxForDeterministicGas_real_meter (w : World) (ctx : Context) (msg : Msg)
    (reqs : DeterministicGasRequirements) (gasRequired : Nat)
    (hreg : reqs.GasRequiredByMessage msg = (gasRequired, true))
    (halloc : w.Allocated ctx) :
    (ctxForDeterministicGas w ctx msg reqs).1.GasMeter ctx =
      ((w.GasMeter ctx).ConsumeGas gasRequired (deterministicGasDescriptor gasRequired msg)).1 := by
  rw [ctxForDeterministicGas_registered w ctx msg reqs gasRequired hreg]
  have hne : ctx.gasMeter ≠ w.nextMeter := Nat.ne_of_lt halloc
  rcases hc : (w.ConsumeGas ctx gasRequired (deterministicGasDescriptor gasRequired msg)).2 with _ | p
  · simp [World.GasMeter, World.NewGasMeter, World.ConsumeGas, Function.update_noteq hne]
  · simp [World.GasMeter, World.ConsumeGas]

theorem runConsumes_meters_other (ctx : Context) (ref : Nat) (h : ref ≠ ctx.gasMeter) :
    ∀ (amounts : List Nat) (w : World), (runConsumes w ctx amounts).1.meters ref = w.meters ref := by
  intro amounts
  induction amounts with
  | nil => intro w; rfl
  | cons amount rest ih =>
    intro w
    have hstep := World.ConsumeGas_meters_other w ctx amount "handler" ref h
    rcases hc : w.ConsumeGas ctx amount "handler" with ⟨w1, _ | p⟩
    · rw [hc] at hstep
      simp only [runConsumes, hc]
      rw [ih w1]; exact hstep
    · rw [hc] at hstep
      simp only [runConsumes, hc]
      exact hstep

/-- A handler given by a script touches no meter but the one of its context. -/
theorem scriptHandler_meterLocal (script : Context → Msg → HandlerScript) :
    MeterLocal (scriptHandler script) := by
  intro w ctx msg ref h
  have hm := runConsumes_meters_other ctx ref h (script ctx msg).consumes w
  unfold scriptHandler
  rcases hc : runConsumes w ctx (script ctx msg).consumes with ⟨w1, _ | p⟩
  · rw [hc] at hm; simpa using hm
  · rw [hc] at hm; simpa using hm

theorem reportDeterministicGasMetric_meters (w : World) (oldCtx newCtx : Context)
    (gasBefore : Nat) (msgName : String) :
    (reportDeterministicGasMetric w oldCtx newCtx gasBefore msgName).meters = w.meters := by
  unfold reportDeterministicGasMetric
  by_cases h : subUint64 (w.GasMeter oldCtx).GasConsumed gasBefore = 0
  · simp [h]
  · simp [h, World.AddSample]

/-- A script that asks for more gas than a bounded meter has left panics. -/
theorem runConsumes_exceeds (ctx : Context) (limit : Nat) :
    ∀ (amounts : List Nat) (w : World) (consumed : Nat),
      w.meters ctx.gasMeter = GasMeter.basic limit consumed → consumed ≤ limit →
      limit < consumed + amounts.sum →
      ∃ p, (runConsumes w ctx amounts).2 = some p ∧
        (consumed + amounts.sum ≤ MaxUint64 → p = GasPanic.ErrorOutOfGas "handler") := by
  intro amounts
  induction amounts with
  | nil =>
    intro w consumed _ hc hs
    simp at hs
    omega
  | cons amount rest ih =>
    intro w consumed hm hc hs
    simp only [List.sum_cons] at hs
    by_cases hov : MaxUint64 - consumed < amount
    · refine ⟨GasPanic.ErrorGasOverflow "handler", ?_, ?_⟩
      · simp [runConsumes, World.ConsumeGas, World.GasMeter, hm, GasMeter.ConsumeGas,
          addUint64Overflow, hov]
      · intro hle
        simp only [List.sum_cons] at hle
        omega
    · by_cases hl : consumed + amount > limit
      · refine ⟨GasPanic.ErrorOutOfGas "handler", ?_, fun _ => rfl⟩
        simp [runConsumes, World.ConsumeGas, World.GasMeter, hm, GasMeter.ConsumeGas,
          addUint64Overflow, hov, hl]
      · have hmeter : (w.ConsumeGas ctx amount "handler").1.meters ctx.gasMeter =
            GasMeter.basic limit (consumed + amount) := by
          simp [World.ConsumeGas, World.GasMeter, hm, GasMeter.ConsumeGas,
            addUint64Overflow, hov, hl]
        have hnone : (w.ConsumeGas ctx amount "handler").2 = none := by
          simp [World.ConsumeGas, World.GasMeter, hm, GasMeter.ConsumeGas,
            addUint64Overflow, hov, hl]
        rcases hstep : w.ConsumeGas ctx amount "handler" with ⟨w1, o⟩
        rw [hstep] at hmeter hnone
        simp only at hmeter hnone
        subst hnone
        obtain ⟨p, hp, hkind⟩ := ih w1 (consumed + amount) hmeter (by omega) (by omega)
        refine ⟨p, ?_, ?_⟩
        · simp only [runConsumes, hstep]
          exact hp
        · intro hle
          simp only [List.sum_cons] at hle
          exact hkind (by omega)

/-- Frame lemma: the wrappers leave on the real meter what the charge of
`ctxForDeterministicGas` left there, when the base handler is meter-local. -/
theorem handler_frame_real_meter (reqs : DeterministicGasRequirements)
    (baseHandler : Handler) (w : World) (ctx : Context) (msg : Msg) (gasRequired : Nat)
    (hreg : reqs.GasRequiredByMessage msg = (gasRequired, true))
    (halloc : w.Allocated ctx)
    (hlocal : MeterLocal baseHandler) :
    (deterministicGasRouter.handler reqs baseHandler w ctx msg).1.GasMeter ctx =
        (ctxForDeterministicGas w ctx msg reqs).1.GasMeter ctx ∧
      (deterministicMsgServer.handler reqs baseHandler w ctx msg).1.GasMeter ctx =
        (ctxForDeterministicGas w ctx msg reqs).1.GasMeter ctx := by
  have hne : ctx.gasMeter ≠ w.nextMeter := Nat.ne_of_lt halloc
  have hshape := ctxForDeterministicGas_registered w ctx msg reqs gasRequired hreg
  unfold deterministicGasRouter.handler deterministicMsgServer.handler
  rcases hc : (w.ConsumeGas ctx gasRequired (deterministicGasDescriptor gasRequired msg)).2
    with _ | p
  · rw [hc] at hshape
    simp only at hshape
    rw [hshape]
    simp only
    have hkeep := hlocal
      ((w.ConsumeGas ctx gasRequired (deterministicGasDescriptor gasRequired msg)).1.NewGasMeter
        ((fuseGasMultiplier * gasRequired) % 2 ^ 64)).1
      (ctx.WithGasMeter w.nextMeter) msg ctx.gasMeter hne
    constructor
    · exact hkeep
    · rcases hh : baseHandler
        ((w.ConsumeGas ctx gasRequired (deterministicGasDescriptor gasRequired msg)).1.NewGasMeter
          ((fuseGasMultiplier * gasRequired) % 2 ^ 64)).1
        (ctx.WithGasMeter w.nextMeter) msg with ⟨w2, r | p⟩
      · rw [hh] at hkeep
        simp only
        split
        · simp only [World.GasMeter, reportDeterministicGasMetric_meters]
          exact hkeep
        · exact hkeep
      · rw [hh] at hkeep
        exact hkeep
  · rw [hc] at hshape
    simp only at hshape
    rw [hshape]
    exact ⟨rfl, rfl⟩

/-! ## Claims on the deterministic gas interceptor -/

/-- C1, as the code has it: for a registered message with requirement
`gasRequired`, `ctxForDeterministicGas` charges exactly `gasRequired` to the real
gas meter, and `FixedGas` is no part of the charge. When
`gasBefore + gasRequired` fits in 64 bits the real meter shows
`gasBefore + gasRequired` after the call; when the sum also stays within the
limit of the real meter the call returns, with `gasBefore` and `true`. -/
theorem ctxForDeterministicGas_charges_gasRequired (w : World) (ctx : Context) (msg : Msg)
    (reqs : DeterministicGasRequirements) (gasRequired : Nat)
    (hreg : reqs.GasRequiredByMessage msg = (gasRequired, true))
    (halloc : w.Allocated ctx)
    (hfit : (w.GasMeter ctx).GasConsumed + gasRequired ≤ MaxUint64) :
    ((ctxForDeterministicGas w ctx msg reqs).1.GasMeter ctx).GasConsumed =
        (w.GasMeter ctx).GasConsumed + gasRequired ∧
      ((∀ limit, (w.GasMeter ctx).Limit = some limit →
          (w.GasMeter ctx).GasConsumed + gasRequired ≤ limit) →
        (ctxForDeterministicGas w ctx msg reqs).2 =
          Completion.returned (ctx.WithGasMeter w.nextMeter, (w.GasMeter ctx).GasConsumed,
            true)) := by
  constructor
  · rw [ctxForDeterministicGas_real_meter w ctx msg reqs gasRequired hreg halloc]
    exact GasMeter.ConsumeGas_consumed _ _ _ hfit
  · intro hl
    rw [ctxForDeterministicGas_registered w ctx msg reqs gasRequired hreg]
    have hok := GasMeter.ConsumeGas_ok (w.GasMeter ctx) gasRequired
      (deterministicGasDescriptor gasRequired msg) hfit hl
    rw [World.ConsumeGas_snd, hok]

/-- Witness of C1: 1000 gas are charged on a meter that had consumed 7. -/
theorem ctxForDeterministicGas_charges_gasRequired_witness :
    ((ctxForDeterministicGas exampleWorld exampleCtx msgSend
          exampleConfig.requirements).1.GasMeter exampleCtx).GasConsumed =
        (exampleWorld.GasMeter exampleCtx).GasConsumed + 1000 ∧
      ((∀ limit, (exampleWorld.GasMeter exampleCtx).Limit = some limit →
          (exampleWorld.GasMeter exampleCtx).GasConsumed + 1000 ≤ limit) →
        (ctxForDeterministicGas exampleWorld exampleCtx msgSend exampleConfig.requirements).2 =
          Completion.returned (exampleCtx.WithGasMeter exampleWorld.nextMeter,
            (exampleWorld.GasMeter exampleCtx).GasConsumed, true)) :=
  ctxForDeterministicGas_charges_gasRequired exampleWorld exampleCtx msgSend
    exampleConfig.requirements 1000 (by decide) (by decide) (by decide)

/-- Counterexample to C1 as stated: with `gasRequired = 1000` and `FixedGas = 50`
the real meter, which had consumed 7, shows 1007 after the call and not
`7 + 1000 + 50`. -/
theorem ctxForDeterministicGas_does_not_charge_FixedGas :
    exampleConfig.GasRequiredByMessage msgSend = (1000, true) ∧
      exampleConfig.FixedGas = 50 ∧
      (exampleWorld.GasMeter exampleCtx).GasConsumed = 7 ∧
      ((ctxForDeterministicGas exampleWorld exampleCtx msgSend
          exampleConfig.requirements).1.GasMeter exampleCtx).GasConsumed = 1007 ∧
      ((ctxForDeterministicGas exampleWorld exampleCtx msgSend
          exampleConfig.requirements).1.GasMeter exampleCtx).GasConsumed ≠
        (exampleWorld.GasMeter exampleCtx).GasConsumed + 1000 + exampleConfig.FixedGas := by
  decide

/-- C2: for a registered message and every base handler that reaches gas meters
only through its context, the real gas meter is not touched by the execution of
the handler: after the wrapped handler (of the router and of the message server
alike) it is the meter left by the charge of `ctxForDeterministicGas`, whatever
the handler consumed. -/
theorem wrapped_handler_leaves_real_meter (reqs : DeterministicGasRequirements)
    (baseHandler : Handler) (w : World) (ctx : Context) (msg : Msg) (gasRequired : Nat)
    (hreg : reqs.GasRequiredByMessage msg = (gasRequired, true))
    (halloc : w.Allocated ctx)
    (hlocal : MeterLocal baseHandler) :
    (deterministicGasRouter.handler reqs baseHandler w ctx msg).1.GasMeter ctx =
        (ctxForDeterministicGas w ctx msg reqs).1.GasMeter ctx ∧
      (deterministicMsgServer.handler reqs baseHandler w ctx msg).1.GasMeter ctx =
        (ctxForDeterministicGas w ctx msg reqs).1.GasMeter ctx :=
  handler_frame_real_meter reqs baseHandler w ctx msg gasRequired hreg halloc hlocal

/-- Witness of C2: a handler that consumes 500 gas and one that consumes 4500
gas leave the same real meter, with 1007 gas consumed. -/
theorem wrapped_handler_leaves_real_meter_witness :
    ((deterministicGasRouter.handler exampleConfig.requirements (scriptHandler cheapScript)
          exampleWorld exampleCtx msgSend).1.GasMeter exampleCtx =
        (ctxForDeterministicGas exampleWorld exampleCtx msgSend
          exampleConfig.requirements).1.GasMeter exampleCtx ∧
      (deterministicMsgServer.handler exampleConfig.requirements (scriptHandler cheapScript)
          exampleWorld exampleCtx msgSend).1.GasMeter exampleCtx =
        (ctxForDeterministicGas exampleWorld exampleCtx msgSend
          exampleConfig.requirements).1.GasMeter exampleCtx) ∧
      (deterministicGasRouter.handler exampleConfig.requirements (scriptHandler costlyScript)
          exampleWorld exampleCtx msgSend).1.GasMeter exampleCtx =
        GasMeter.basic 100000 1007 :=
  ⟨wrapped_handler_leaves_real_meter exampleConfig.requirements (scriptHandler cheapScript)
      exampleWorld exampleCtx msgSend 1000 (by decide) (by decide)
      (scriptHandler_meterLocal cheapScript),
    by decide⟩

/-- C3, as the code has it: for a registered message whose handler tries to
consume more gas than the fuse limit `5 * gasRequired`, the wrapped handler
fails by a gas panic, and the gas consumed on the real meter stays at
`gasBefore + gasRequired`: nothing is refunded, nothing more is charged, and
`FixedGas` is no part of it. When the charge is within the limit of the real
meter and the amounts asked by the handler sum to a 64-bit number, the panic is
the out-of-gas panic of the substituted meter. -/
theorem fuse_exceeded_fails_and_keeps_charge (reqs : DeterministicGasRequirements)
    (script : Context → Msg → HandlerScript) (w : World) (ctx : Context) (msg : Msg)
    (gasRequired : Nat)
    (hreg : reqs.GasRequiredByMessage msg = (gasRequired, true))
    (halloc : w.Allocated ctx)
    (hfit : (w.GasMeter ctx).GasConsumed + gasRequired ≤ MaxUint64)
    (hover : ∀ c, fuseGasMultiplier * gasRequired < ((script c msg).consumes).sum) :
    (∃ p, (deterministicGasRouter.handler reqs (scriptHandler script) w ctx msg).2 =
          Completion.panicked p ∧
        (deterministicMsgServer.handler reqs (scriptHandler script) w ctx msg).2 =
          Completion.panicked p ∧
        ((∀ limit, (w.GasMeter ctx).Limit = some limit →
            (w.GasMeter ctx).GasConsumed + gasRequired ≤ limit) →
          (∀ c, ((script c msg).consumes).sum ≤ MaxUint64) →
          p = GasPanic.ErrorOutOfGas "handler")) ∧
      ((deterministicGasRouter.handler reqs (scriptHandler script) w ctx msg).1.GasMeter
          ctx).GasConsumed = (w.GasMeter ctx).GasConsumed + gasRequired ∧
      ((deterministicMsgServer.handler reqs (scriptHandler script) w ctx msg).1.GasMeter
          ctx).GasConsumed = (w.GasMeter ctx).GasConsumed + gasRequired := by
  have hframe := handler_frame_real_meter reqs (scriptHandler script) w ctx msg
    gasRequired hreg halloc (scriptHandler_meterLocal script)
  have hreal := ctxForDeterministicGas_real_meter w ctx msg reqs gasRequired hreg halloc
  have hcons := GasMeter.ConsumeGas_consumed (w.GasMeter ctx) gasRequired
    (deterministicGasDescriptor gasRequired msg) hfit
  refine ⟨?_, by rw [hframe.1, hreal, hcons], by rw [hframe.2, hreal, hcons]⟩
  have hshape := ctxForDeterministicGas_registered w ctx msg reqs gasRequired hreg
  unfold deterministicGasRouter.handler deterministicMsgServer.handler
  rcases hc : (w.ConsumeGas ctx gasRequired (deterministicGasDescriptor gasRequired msg)).2
    with _ | p
  · rw [hc] at hshape
    simp only at hshape
    rw [hshape]
    simp only
    have hnew : ((w.ConsumeGas ctx gasRequired
          (deterministicGasDescriptor gasRequired msg)).1.NewGasMeter
          ((fuseGasMultiplier * gasRequired) % 2 ^ 64)).1.meters
          (ctx.WithGasMeter w.nextMeter).gasMeter =
        GasMeter.basic ((fuseGasMultiplier * gasRequired) % 2 ^ 64) 0 := by
      simp only [World.NewGasMeter, World.ConsumeGas, Context.WithGasMeter,
        GasMeter.NewGasMeter, Function.update_same]
    have hle : (fuseGasMultiplier * gasRequired) % 2 ^ 64 ≤ fuseGasMultiplier * gasRequired :=
      Nat.mod_le _ _
    obtain ⟨p, hp, hkind⟩ := runConsumes_exceeds (ctx.WithGasMeter w.nextMeter)
      ((fuseGasMultiplier * gasRequired) % 2 ^ 64)
      (script (ctx.WithGasMeter w.nextMeter) msg).consumes
      _ 0 hnew (Nat.zero_le _) (by have := hover (ctx.WithGasMeter w.nextMeter); omega)
    have hrun : (scriptHandler script
        ((w.ConsumeGas ctx gasRequired
          (deterministicGasDescriptor gasRequired msg)).1.NewGasMeter
          ((fuseGasMultiplier * gasRequired) % 2 ^ 64)).1
        (ctx.WithGasMeter w.nextMeter) msg).2 = Completion.panicked p := by
      unfold scriptHandler
      rcases hr : runConsumes
        ((w.ConsumeGas ctx gasRequired
          (deterministicGasDescriptor gasRequired msg)).1.NewGasMeter
          ((fuseGasMultiplier * gasRequired) % 2 ^ 64)).1
        (ctx.WithGasMeter w.nextMeter)
        (script (ctx.WithGasMeter w.nextMeter) msg).consumes with ⟨w2, o⟩
      rw [hr] at hp
      simp only at hp
      subst hp
      rfl
    refine ⟨p, hrun, ?_, ?_⟩
    · rcases hh : scriptHandler script
        ((w.ConsumeGas ctx gasRequired
          (deterministicGasDescriptor gasRequired msg)).1.NewGasMeter
          ((fuseGasMultiplier * gasRequired) % 2 ^ 64)).1
        (ctx.WithGasMeter w.nextMeter) msg with ⟨w2, c⟩
      rw [hh] at hrun
      simp only at hrun
      subst hrun
      rfl
    · intro _ hsum
      exact hkind (by have := hsum (ctx.WithGasMeter w.nextMeter); omega)
  · rw [hc] at hshape
    simp only at hshape
    rw [hshape]
    refine ⟨p, rfl, rfl, ?_⟩
    intro hl _
    have hok := GasMeter.ConsumeGas_ok (w.GasMeter ctx) gasRequired
      (deterministicGasDescriptor gasRequired msg) hfit hl
    rw [World.ConsumeGas_snd, hok] at hc
    exact absurd hc (by simp)

/-- Witness of C3: a handler asking for 5500 gas under the fuse limit 5000. -/
theorem fuse_exceeded_fails_and_keeps_charge_witness :
    (∃ p, (deterministicGasRouter.handler exampleConfig.requirements
            (scriptHandler runawayScript) exampleWorld exampleCtx msgSend).2 =
          Completion.panicked p ∧
        (deterministicMsgServer.handler exampleConfig.requirements
            (scriptHandler runawayScript) exampleWorld exampleCtx msgSend).2 =
          Completion.panicked p ∧
        ((∀ limit, (exampleWorld.GasMeter exampleCtx).Limit = some limit →
            (exampleWorld.GasMeter exampleCtx).GasConsumed + 1000 ≤ limit) →
          (∀ c, ((runawayScript c msgSend).consumes).sum ≤ MaxUint64) →
          p = GasPanic.ErrorOutOfGas "handler")) ∧
      ((deterministicGasRouter.handler exampleConfig.requirements
          (scriptHandler runawayScript) exampleWorld exampleCtx msgSend).1.GasMeter
          exampleCtx).GasConsumed = (exampleWorld.GasMeter exampleCtx).GasConsumed + 1000 ∧
      ((deterministicMsgServer.handler exampleConfig.requirements
          (scriptHandler runawayScript) exampleWorld exampleCtx msgSend).1.GasMeter
          exampleCtx).GasConsumed = (exampleWorld.GasMeter exampleCtx).GasConsumed + 1000 :=
  fuse_exceeded_fails_and_keeps_charge exampleConfig.requirements runawayScript exampleWorld
    exampleCtx msgSend 1000 (by decide) (by decide) (by decide)
    (fun _ => by simp [runawayScript, fuseGasMultiplier])

/-- Counterexample to C3 as stated: with `gasRequired = 1000`, `FixedGas = 50`
and a handler asking for 5500 gas, the message fails by running out of gas and
the real meter, which had consumed 7, stays at 1007 and not at `7 + 1000 + 50`. -/
theorem fuse_exceeded_real_meter_without_FixedGas :
    exampleConfig.GasRequiredByMessage msgSend = (1000, true) ∧
      exampleConfig.FixedGas = 50 ∧
      (exampleWorld.GasMeter exampleCtx).GasConsumed = 7 ∧
      (deterministicGasRouter.handler exampleConfig.requirements
          (scriptHandler runawayScript) exampleWorld exampleCtx msgSend).2 =
        Completion.panicked (GasPanic.ErrorOutOfGas "handler") ∧
      ((deterministicGasRouter.handler exampleConfig.requirements
          (scriptHandler runawayScript) exampleWorld exampleCtx msgSend).1.GasMeter
          exampleCtx).GasConsumed = 1007 ∧
      ((deterministicGasRouter.handler exampleConfig.requirements
          (scriptHandler runawayScript) exampleWorld exampleCtx msgSend).1.GasMeter
          exampleCtx).GasConsumed ≠
        (exampleWorld.GasMeter exampleCtx).GasConsumed + 1000 + exampleConfig.FixedGas := by
  decide

/-- C4, as the code has it: for a registered message with requirement
`gasRequired` such that `5 * gasRequired` fits in 64 bits, the context that
`ctxForDeterministicGas` returns carries a new gas meter, at an address other
than the one of the real meter, with zero gas consumed and limit
`fuseGasMultiplier * gasRequired = 5 * gasRequired`; the phase flags are those
of the input context. -/
theorem ctxForDeterministicGas_fuse_meter (w : World) (ctx : Context) (msg : Msg)
    (reqs : DeterministicGasRequirements) (gasRequired : Nat)
    (newCtx : Context) (gasBefore : Nat) (isDeterministic : Bool)
    (hreg : reqs.GasRequiredByMessage msg = (gasRequired, true))
    (halloc : w.Allocated ctx)
    (hmul : fuseGasMultiplier * gasRequired < 2 ^ 64)
    (hret : (ctxForDeterministicGas w ctx msg reqs).2 =
      Completion.returned (newCtx, gasBefore, isDeterministic)) :
    (ctxForDeterministicGas w ctx msg reqs).1.GasMeter newCtx =
        GasMeter.basic (5 * gasRequired) 0 ∧
      ((ctxForDeterministicGas w ctx msg reqs).1.GasMeter newCtx).GasConsumed = 0 ∧
      ((ctxForDeterministicGas w ctx msg reqs).1.GasMeter newCtx).Limit =
        some (fuseGasMultiplier * gasRequired) ∧
      newCtx.gasMeter ≠ ctx.gasMeter ∧
      newCtx.IsCheckTx = ctx.IsCheckTx ∧ newCtx.IsReCheckTx = ctx.IsReCheckTx := by
  have hne : w.nextMeter ≠ ctx.gasMeter := Nat.ne_of_gt halloc
  have hshape := ctxForDeterministicGas_registered w ctx msg reqs gasRequired hreg
  rcases hc : (w.ConsumeGas ctx gasRequired (deterministicGasDescriptor gasRequired msg)).2
    with _ | p
  · rw [hc] at hshape
    simp only at hshape
    rw [hshape] at hret ⊢
    simp only [Completion.returned.injEq, Prod.mk.injEq] at hret
    obtain ⟨hctx, -, -⟩ := hret
    subst hctx
    rw [Nat.mod_eq_of_lt hmul]
    have hmeter : ((w.ConsumeGas ctx gasRequired
        (deterministicGasDescriptor gasRequired msg)).1.NewGasMeter
        (fuseGasMultiplier * gasRequired)).1.GasMeter (ctx.WithGasMeter w.nextMeter) =
        GasMeter.basic (5 * gasRequired) 0 := by
      simp [World.GasMeter, World.NewGasMeter, World.ConsumeGas, Context.WithGasMeter,
        GasMeter.NewGasMeter, fuseGasMultiplier]
    rw [hmeter]
    exact ⟨rfl, rfl, rfl, hne, rfl, rfl⟩
  · rw [hc] at hshape
    simp only at hshape
    rw [hshape] at hret
    simp at hret

/-- Witness of C4: the requirement 1000 gives a fresh meter with limit 5000. -/
theorem ctxForDeterministicGas_fuse_meter_witness :
    (ctxForDeterministicGas exampleWorld exampleCtx msgSend
          exampleConfig.requirements).1.GasMeter
          { gasMeter := 1, checkTx := false, recheckTx := false } =
        GasMeter.basic (5 * 1000) 0 ∧
      ((ctxForDeterministicGas exampleWorld exampleCtx msgSend
          exampleConfig.requirements).1.GasMeter
          { gasMeter := 1, checkTx := false, recheckTx := false }).GasConsumed = 0 ∧
      ((ctxForDeterministicGas exampleWorld exampleCtx msgSend
          exampleConfig.requirements).1.GasMeter
          { gasMeter := 1, checkTx := false, recheckTx := false }).Limit =
        some (fuseGasMultiplier * 1000) ∧
      (1 : Nat) ≠ exampleCtx.gasMeter ∧
      Context.IsCheckTx { gasMeter := 1, checkTx := false, recheckTx := false } =
        exampleCtx.IsCheckTx ∧
      Context.IsReCheckTx { gasMeter := 1, checkTx := false, recheckTx := false } =
        exampleCtx.IsReCheckTx :=
  ctxForDeterministicGas_fuse_meter exampleWorld exampleCtx msgSend exampleConfig.requirements
    1000 { gasMeter := 1, checkTx := false, recheckTx := false } 7 true
    (by decide) (by decide) (by decide) (by decide)

/-- Counterexample to C4 as stated: for the requirement `2 ^ 62`, charged on an
infinite meter, the call returns a context whose meter has the limit `2 ^ 62`,
the 64-bit product, and not `5 * 2 ^ 62`. -/
theorem ctxForDeterministicGas_fuse_limit_wraps :
    hugeConfig.GasRequiredByMessage msgSend = (2 ^ 62, true) ∧
      (ctxForDeterministicGas infiniteWorld exampleCtx msgSend hugeConfig.requirements).2 =
        Completion.returned ({ gasMeter := 1, checkTx := false, recheckTx := false }, 0, true) ∧
      ((ctxForDeterministicGas infiniteWorld exampleCtx msgSend
          hugeConfig.requirements).1.GasMeter
          { gasMeter := 1, checkTx := false, recheckTx := false }).Limit = some (2 ^ 62) ∧
      ((ctxForDeterministicGas infiniteWorld exampleCtx msgSend
          hugeConfig.requirements).1.GasMeter
          { gasMeter := 1, checkTx := false, recheckTx := false }).Limit ≠
        some (5 * 2 ^ 62) := by
  decide

/-- C5: for a message whose type is not in the registry, `ctxForDeterministicGas`
leaves the world as it is (no gas is consumed on the real meter and no meter is
allocated), returns the input context with its original gas meter, the gas
consumed so far, and `isDeterministic = false`. -/
theorem ctxForDeterministicGas_unregistered_passthrough (w : World) (ctx : Context) (msg : Msg)
    (reqs : DeterministicGasRequirements)
    (hreg : (reqs.GasRequiredByMessage msg).2 = false) :
    ctxForDeterministicGas w ctx msg reqs =
        (w, Completion.returned (ctx, (w.GasMeter ctx).GasConsumed, false)) ∧
      (ctxForDeterministicGas w ctx msg reqs).1.GasMeter ctx = w.GasMeter ctx ∧
      (ctxForDeterministicGas w ctx msg reqs).1.nextMeter = w.nextMeter := by
  rw [ctxForDeterministicGas_unregistered w ctx msg reqs hreg]
  exact ⟨rfl, rfl, rfl⟩

/-- Witness of C5: a message of an unknown type. -/
theorem ctxForDeterministicGas_unregistered_passthrough_witness :
    ctxForDeterministicGas exampleWorld exampleCtx msgUnknown exampleConfig.requirements =
        (exampleWorld,
          Completion.returned (exampleCtx, (exampleWorld.GasMeter exampleCtx).GasConsumed,
            false)) ∧
      (ctxForDeterministicGas exampleWorld exampleCtx msgUnknown
          exampleConfig.requirements).1.GasMeter exampleCtx =
        exampleWorld.GasMeter exampleCtx ∧
      (ctxForDeterministicGas exampleWorld exampleCtx msgUnknown
          exampleConfig.requirements).1.nextMeter = exampleWorld.nextMeter :=
  ctxForDeterministicGas_unregistered_passthrough exampleWorld exampleCtx msgUnknown
    exampleConfig.requirements (by decide)

/-- C6: for every base handler, context and message for which
`ctxForDeterministicGas` returns a context, the wrapped handler of the router
and the wrapped handler of the message server return exactly what the base
handler returns (result and error, or its panic) when it is invoked with the
same message under that context in the world left by `ctxForDeterministicGas`;
the router wrapper also leaves exactly the world the base handler leaves. -/
theorem wrapped_handler_returns_base_result (reqs : DeterministicGasRequirements)
    (baseHandler : Handler) (w : World) (ctx : Context) (msg : Msg)
    (newCtx : Context) (gasBefore : Nat) (isDeterministic : Bool)
    (hret : (ctxForDeterministicGas w ctx msg reqs).2 =
      Completion.returned (newCtx, gasBefore, isDeterministic)) :
    deterministicGasRouter.handler reqs baseHandler w ctx msg =
        baseHandler (ctxForDeterministicGas w ctx msg reqs).1 newCtx msg ∧
      (deterministicMsgServer.handler reqs baseHandler w ctx msg).2 =
        (baseHandler (ctxForDeterministicGas w ctx msg reqs).1 newCtx msg).2 := by
  unfold deterministicGasRouter.handler deterministicMsgServer.handler
  rcases hc : ctxForDeterministicGas w ctx msg reqs with ⟨w1, c⟩
  rw [hc] at hret
  simp only at hret
  subst hret
  refine ⟨rfl, ?_⟩
  simp only
  rcases hh : baseHandler w1 newCtx msg with ⟨w2, r | p⟩
  · simp only
    split <;> rfl
  · rfl

/-- Witness of C6: a handler that returns an error for a registered message. -/
theorem wrapped_handler_returns_base_result_witness :
    deterministicGasRouter.handler exampleConfig.requirements (scriptHandler failingScript)
          exampleWorld exampleCtx msgSend =
        scriptHandler failingScript
          (ctxForDeterministicGas exampleWorld exampleCtx msgSend exampleConfig.requirements).1
          { gasMeter := 1, checkTx := false, recheckTx := false } msgSend ∧
      (deterministicMsgServer.handler exampleConfig.requirements (scriptHandler failingScript)
          exampleWorld exampleCtx msgSend).2 =
        (scriptHandler failingScript
          (ctxForDeterministicGas exampleWorld exampleCtx msgSend exampleConfig.requirements).1
          { gasMeter := 1, checkTx := false, recheckTx := false } msgSend).2 :=
  wrapped_handler_returns_base_result exampleConfig.requirements (scriptHandler failingScript)
    exampleWorld exampleCtx msgSend { gasMeter := 1, checkTx := false, recheckTx := false } 7 true
    (by decide)

/-- What `ctxForDeterministicGas` returns, when it returns: the flag is the one of
the registry, `gasBefore` is the gas consumed on the real meter before the
call, and the phase flags are those of the input context. -/
theorem ctxForDeterministicGas_returned_facts (w : World) (ctx : Context) (msg : Msg)
    (reqs : DeterministicGasRequirements) (newCtx : Context) (gasBefore : Nat)
    (isDeterministic : Bool)
    (hret : (ctxForDeterministicGas w ctx msg reqs).2 =
      Completion.returned (newCtx, gasBefore, isDeterministic)) :
    isDeterministic = (reqs.GasRequiredByMessage msg).2 ∧
      gasBefore = (w.GasMeter ctx).GasConsumed ∧
      newCtx.IsCheckTx = ctx.IsCheckTx ∧ newCtx.IsReCheckTx = ctx.IsReCheckTx := by
  rcases hg : reqs.GasRequiredByMessage msg with ⟨g, found⟩
  cases found with
  | false =>
    rw [ctxForDeterministicGas_unregistered w ctx msg reqs (by rw [hg])] at hret
    simp only [Completion.returned.injEq, Prod.mk.injEq] at hret
    obtain ⟨h1, h2, h3⟩ := hret
    subst h1 h2 h3
    exact ⟨rfl, rfl, rfl, rfl⟩
  | true =>
    rw [ctxForDeterministicGas_registered w ctx msg reqs g hg] at hret
    rcases hc : (w.ConsumeGas ctx g (deterministicGasDescriptor g msg)).2 with _ | p
    · rw [hc] at hret
      simp only [Completion.returned.injEq, Prod.mk.injEq] at hret
      obtain ⟨h1, h2, h3⟩ := hret
      subst h1 h2 h3
      exact ⟨rfl, rfl, rfl, rfl⟩
    · rw [hc] at hret
      simp at hret

/-- C7, as the code has it: relative to the sink as the execution of the handler
leaves it, the message server wrapper adds one sample if and only if the message
type is registered, the wrapped execution returned (neither the charge nor the
handler panicked) with no error, the context is neither in the CheckTx nor in
the ReCheckTx phase, and the gas charged on the real meter since `gasBefore` is
not zero; in every other case, the failing paths included, the sink is left as
the handler left it. -/
theorem msgServer_sample_iff (reqs : DeterministicGasRequirements)
    (handler : Handler) (w : World) (sdkCtx : Context) (msg : Msg) :
    ((deterministicMsgServer.handler reqs handler w sdkCtx msg).1.samples.length =
          (deterministicGasRouter.handler reqs handler w sdkCtx msg).1.samples.length + 1 ↔
        ((reqs.GasRequiredByMessage msg).2 = true ∧
          (∃ r, (deterministicGasRouter.handler reqs handler w sdkCtx msg).2 =
              Completion.returned r ∧ r.err = none) ∧
          sdkCtx.IsCheckTx = false ∧ sdkCtx.IsReCheckTx = false ∧
          subUint64
            (((deterministicGasRouter.handler reqs handler w sdkCtx msg).1.GasMeter
              sdkCtx).GasConsumed) (w.GasMeter sdkCtx).GasConsumed ≠ 0)) ∧
      (¬ ((reqs.GasRequiredByMessage msg).2 = true ∧
          (∃ r, (deterministicGasRouter.handler reqs handler w sdkCtx msg).2 =
              Completion.returned r ∧ r.err = none) ∧
          sdkCtx.IsCheckTx = false ∧ sdkCtx.IsReCheckTx = false ∧
          subUint64
            (((deterministicGasRouter.handler reqs handler w sdkCtx msg).1.GasMeter
              sdkCtx).GasConsumed) (w.GasMeter sdkCtx).GasConsumed ≠ 0) →
        (deterministicMsgServer.handler reqs handler w sdkCtx msg).1.samples =
          (deterministicGasRouter.handler reqs handler w sdkCtx msg).1.samples) ∧
      (deterministicMsgServer.handler reqs handler w sdkCtx msg).2 =
        (deterministicGasRouter.handler reqs handler w sdkCtx msg).2 := by
  have hfacts := ctxForDeterministicGas_returned_facts w sdkCtx msg reqs
  unfold deterministicMsgServer.handler deterministicGasRouter.handler
  rcases hc : ctxForDeterministicGas w sdkCtx msg reqs with ⟨w1, c1⟩
  rw [hc] at hfacts
  cases c1 with
  | panicked p => simp
  | returned triple =>
    obtain ⟨newCtx, gasBefore, isDeterministic⟩ := triple
    obtain ⟨hdet, hgb, hcheck, hrecheck⟩ := hfacts newCtx gasBefore isDeterministic rfl
    simp only
    rcases hh : handler w1 newCtx msg with ⟨w2, c2⟩
    cases c2 with
    | panicked p => simp
    | returned r =>
      simp only
      by_cases hcond : r.err = none ∧ isDeterministic = true ∧ newCtx.IsCheckTx = false ∧
          newCtx.IsReCheckTx = false
      · rw [if_pos hcond]
        obtain ⟨herr, hd, h1, h2⟩ := hcond
        rw [hcheck] at h1
        rw [hrecheck] at h2
        rw [hdet] at hd
        simp only [reportDeterministicGasMetric, ← hgb]
        by_cases hz : subUint64 (w2.GasMeter sdkCtx).GasConsumed gasBefore = 0
        · simp [hz]
        · simp [hz, herr, hd, h1, h2, World.AddSample]
      · rw [if_neg hcond]
        have hno : ¬ ((reqs.GasRequiredByMessage msg).2 = true ∧
            (∃ r', Completion.returned r = Completion.returned r' ∧ r'.err = none) ∧
            sdkCtx.IsCheckTx = false ∧ sdkCtx.IsReCheckTx = false ∧
            subUint64 (w2.GasMeter sdkCtx).GasConsumed (w.GasMeter sdkCtx).GasConsumed ≠ 0) := by
          rintro ⟨hd, ⟨r', hr', herr'⟩, h1, h2, _⟩
          simp only [Completion.returned.injEq] at hr'
          subst hr'
          exact hcond ⟨herr', by rw [hdet]; exact hd, by rw [hcheck]; exact h1,
            by rw [hrecheck]; exact h2⟩
        refine ⟨⟨fun h => ?_, fun h => absurd h hno⟩, fun _ => rfl, rfl⟩
        simp at h

/-- Witness of C7: a successful registered message in the DeliverTx phase, for
which the sample is emitted. -/
theorem msgServer_sample_iff_witness :
    (deterministicMsgServer.handler exampleConfig.requirements (scriptHandler cheapScript)
        exampleWorld exampleCtx msgSend).1.samples.length =
      (deterministicGasRouter.handler exampleConfig.requirements (scriptHandler cheapScript)
        exampleWorld exampleCtx msgSend).1.samples.length + 1 :=
  (msgServer_sample_iff exampleConfig.requirements (scriptHandler cheapScript)
    exampleWorld exampleCtx msgSend).1.2
    ⟨by decide, ⟨{ res := some "ok", err := none }, by decide, rfl⟩, by decide, by decide,
      by decide⟩

/-- Counterexample to C7 as stated: a message type registered with a requirement
of 0 gas, executed without error in the DeliverTx phase by a handler that
consumes no gas, emits no sample, while a message registered with 1000 gas
emits one. -/
theorem msgServer_no_sample_for_zero_requirement :
    exampleConfig.GasRequiredByMessage msgFree = (0, true) ∧
      exampleCtx.IsCheckTx = false ∧ exampleCtx.IsReCheckTx = false ∧
      (deterministicMsgServer.handler exampleConfig.requirements (scriptHandler idleScript)
          exampleWorld exampleCtx msgFree).2 =
        Completion.returned { res := some "ok", err := none } ∧
      (deterministicMsgServer.handler exampleConfig.requirements (scriptHandler idleScript)
          exampleWorld exampleCtx msgFree).1.samples = [] ∧
      (deterministicMsgServer.handler exampleConfig.requirements (scriptHandler cheapScript)
          exampleWorld exampleCtx msgSend).1.samples =
        [{ key := "deterministic_gas_factor", nondeterministicGas := 500,
           deterministicGas := 1000, msgName := "cosmos.bank.v1beta1.MsgSend" }] := by
  decide

/-! ## Claims on the fee model keeper -/

/-- C8, as the tracked total is a `uint64`: `TrackGas` is additive: in a fresh
block (the context of `setup`, and any context right after a block boundary)
`TrackedGas` is 0, and for every amount `a` such that the sum fits in 64 bits,
`TrackedGas` after `TrackGas a` equals `TrackedGas` before plus `a`. -/
theorem TrackGas_additive (ctx : StoreCtx) (a : Nat)
    (hfit : Keeper.TrackedGas ctx + a < 2 ^ 64) :
    Keeper.TrackedGas (Keeper.TrackGas ctx a) = Keeper.TrackedGas ctx + a ∧
      Keeper.TrackedGas setup = 0 ∧
      Keeper.TrackedGas ctx.nextBlock = 0 := by
  refine ⟨?_, by decide, rfl⟩
  have h : Keeper.TrackedGas (Keeper.TrackGas ctx a) =
      (Keeper.TrackedGas ctx + a) % 2 ^ 64 % 2 ^ 64 := by
    simp only [Keeper.TrackedGas, Keeper.TrackGas, KVStore.Set, KVStore.Get,
      Function.update_same]
  rw [h, Nat.mod_mod, Nat.mod_eq_of_lt hfit]

/-- Witness of C8: `TrackGas 10` then `TrackGas 5` in the context of `setup`
gives 10 and then 15. -/
theorem TrackGas_additive_witness :
    (Keeper.TrackedGas (Keeper.TrackGas setup 10) = Keeper.TrackedGas setup + 10 ∧
        Keeper.TrackedGas setup = 0 ∧ Keeper.TrackedGas setup.nextBlock = 0) ∧
      Keeper.TrackedGas (Keeper.TrackGas (Keeper.TrackGas setup 10) 5) =
        Keeper.TrackedGas (Keeper.TrackGas setup 10) + 5 ∧
      Keeper.TrackedGas (Keeper.TrackGas (Keeper.TrackGas setup 10) 5) = 15 :=
  ⟨TrackGas_additive setup 10 (by decide),
    (TrackGas_additive (Keeper.TrackGas setup 10) 5 (by decide)).1, by decide⟩

/-- Counterexample to C8 as stated: after `TrackGas (2 ^ 64 - 1)`, `TrackGas 1`
leaves a tracked total that is a 64-bit number and so is not the total before
plus 1, which is `2 ^ 64`. -/
theorem TrackGas_not_additive_at_overflow :
    Keeper.TrackedGas (Keeper.TrackGas setup (2 ^ 64 - 1)) = 2 ^ 64 - 1 ∧
      Keeper.TrackedGas (Keeper.TrackGas (Keeper.TrackGas setup (2 ^ 64 - 1)) 1) < 2 ^ 64 ∧
      Keeper.TrackedGas (Keeper.TrackGas (Keeper.TrackGas setup (2 ^ 64 - 1)) 1) ≠
        Keeper.TrackedGas (Keeper.TrackGas setup (2 ^ 64 - 1)) + 1 := by
  decide

/-- C9: for every price `p`, `GetMinGasPrice` after `SetMinGasPrice p` returns
`p`, so the same amount (the same 18-decimal string) and the same denom, and a
later `SetMinGasPrice` overwrites the earlier value: after 10coin the read gives
`"10.000000000000000000"` and `"coin"`, after 10coin then 20coin it gives
`"20.000000000000000000"` and `"coin"`. -/
theorem MinGasPrice_set_get :
    (∀ (ctx : StoreCtx) (p : DecCoin),
        Keeper.GetMinGasPrice (Keeper.SetMinGasPrice ctx p) = p ∧
        (Keeper.GetMinGasPrice (Keeper.SetMinGasPrice ctx p)).Amount.toString =
          p.Amount.toString ∧
        (Keeper.GetMinGasPrice (Keeper.SetMinGasPrice ctx p)).Denom = p.Denom) ∧
      (∀ (ctx : StoreCtx) (p q : DecCoin),
        Keeper.GetMinGasPrice (Keeper.SetMinGasPrice (Keeper.SetMinGasPrice ctx p) q) = q) ∧
      (Keeper.GetMinGasPrice
          (Keeper.SetMinGasPrice setup (NewDecCoin "coin" 10))).Amount.toString =
        "10.000000000000000000" ∧
      (Keeper.GetMinGasPrice (Keeper.SetMinGasPrice setup (NewDecCoin "coin" 10))).Denom =
        "coin" ∧
      (Keeper.GetMinGasPrice
          (Keeper.SetMinGasPrice (Keeper.SetMinGasPrice setup (NewDecCoin "coin" 10))
            (NewDecCoin "coin" 20))).Amount.toString = "20.000000000000000000" ∧
      (Keeper.GetMinGasPrice
          (Keeper.SetMinGasPrice (Keeper.SetMinGasPrice setup (NewDecCoin "coin" 10))
            (NewDecCoin "coin" 20))).Denom = "coin" := by
  have hget : ∀ (ctx : StoreCtx) (p : DecCoin),
      Keeper.GetMinGasPrice (Keeper.SetMinGasPrice ctx p) = p := by
    intro ctx p
    simp [Keeper.GetMinGasPrice, Keeper.SetMinGasPrice, KVStore.Set, KVStore.Get]
  refine ⟨fun ctx p => ?_, fun ctx p q => hget _ q, by decide, by decide, by decide, by decide⟩
  rw [hget ctx p]
  exact ⟨rfl, rfl, rfl⟩

/-- C10: the short and long EMA accessors are plain stored values: with no prior
state `GetShortEMAGas` and `GetLongEMAGas` both return 0, and for every value
`v`, `GetShortEMAGas` after `SetShortEMAGas v` returns `v` and `GetLongEMAGas`
after `SetLongEMAGas v` returns `v`, unchanged; writing one of the two does not
change the other. -/
theorem EMAGas_set_get :
    Keeper.GetShortEMAGas setup = Dec.NewDecFromInt 0 ∧
      Keeper.GetLongEMAGas setup = Dec.NewDecFromInt 0 ∧
      (∀ (ctx : StoreCtx) (v : Dec), Keeper.GetShortEMAGas (Keeper.SetShortEMAGas ctx v) = v) ∧
      (∀ (ctx : StoreCtx) (v : Dec), Keeper.GetLongEMAGas (Keeper.SetLongEMAGas ctx v) = v) ∧
      (∀ (ctx : StoreCtx) (v : Dec),
        Keeper.GetLongEMAGas (Keeper.SetShortEMAGas ctx v) = Keeper.GetLongEMAGas ctx) ∧
      (∀ (ctx : StoreCtx) (v : Dec),
        Keeper.GetShortEMAGas (Keeper.SetLongEMAGas ctx v) = Keeper.GetShortEMAGas ctx) ∧
      Keeper.GetShortEMAGas (Keeper.SetShortEMAGas setup (Dec.NewDecFromInt 10)) =
        Dec.NewDecFromInt 10 ∧
      Keeper.GetLongEMAGas (Keeper.SetLongEMAGas setup (Dec.NewDecFromInt 10)) =
        Dec.NewDecFromInt 10 := by
  refine ⟨by decide, by decide, fun ctx v => ?_, fun ctx v => ?_, fun ctx v => ?_,
    fun ctx v => ?_, by decide, by decide⟩
  · simp [Keeper.GetShortEMAGas, Keeper.SetShortEMAGas, KVStore.Set, KVStore.Get]
  · simp [Keeper.GetLongEMAGas, Keeper.SetLongEMAGas, KVStore.Set, KVStore.Get]
  · have hne : Keeper.longEMAGasKey ≠ Keeper.shortEMAGasKey := by decide
    simp [Keeper.GetLongEMAGas, Keeper.SetShortEMAGas, KVStore.Set, KVStore.Get,
      Function.update_noteq hne]
  · have hne : Keeper.shortEMAGasKey ≠ Keeper.longEMAGasKey := by decide
    simp [Keeper.GetShortEMAGas, Keeper.SetLongEMAGas, KVStore.Set, KVStore.Get,
      Function.update_noteq hne]

/-! ## Lemmas on the gas limits of the test chain -/

theorem ChainContext.gasLimitLoop_registered (c : ChainContext) :
    ∀ (msgs : List Msg) (total : Nat), total < 2 ^ 64 →
      c.DeterministicGasConfig.AllRegistered msgs →
      c.gasLimitLoop msgs total =
        Outcome.value ((total + (msgs.map (fun msg =>
          c.DeterministicGasConfig.requiredGas msg + c.DeterministicGasConfig.FixedGas)).sum)
          % 2 ^ 64) := by
  intro msgs
  induction msgs with
  | nil =>
    intro total ht _
    simp only [ChainContext.gasLimitLoop, List.map_nil, List.sum_nil, Nat.add_zero,
      Nat.mod_eq_of_lt ht]
  | cons msg msgs ih =>
    intro total _ hall
    have hmsg : (c.DeterministicGasConfig.GasRequiredByMessage msg).2 = true :=
      hall msg (List.mem_cons_self _ _)
    have hrest : c.DeterministicGasConfig.AllRegistered msgs :=
      fun m hm => hall m (List.mem_cons_of_mem _ hm)
    rcases hg : c.DeterministicGasConfig.GasRequiredByMessage msg with ⟨g, f⟩
    rw [hg] at hmsg
    simp only at hmsg
    subst hmsg
    have hstep : c.gasLimitLoop (msg :: msgs) total = c.gasLimitLoop msgs ((total + (g + c.DeterministicGasConfig.FixedGas) % 2 ^ 64) % 2 ^ 64) := by
      simp [ChainContext.gasLimitLoop, hg]
    rw [hstep, ih _ (Nat.mod_lt _ (by norm_num)) hrest]
    simp only [Config.requiredGas, hg, List.map_cons, List.sum_cons]
    congr 1
    omega

theorem ChainContext.multiSendLoop_registered (c : ChainContext) :
    ∀ (msgs : List Msg) (total : Nat), total < 2 ^ 64 →
      c.DeterministicGasConfig.AllRegistered msgs →
      c.multiSendLoop msgs total =
        Outcome.value ((total + (msgs.map c.DeterministicGasConfig.requiredGas).sum)
          % 2 ^ 64) := by
  intro msgs
  induction msgs with
  | nil =>
    intro total ht _
    simp only [ChainContext.multiSendLoop, List.map_nil, List.sum_nil, Nat.add_zero,
      Nat.mod_eq_of_lt ht]
  | cons msg msgs ih =>
    intro total _ hall
    have hmsg : (c.DeterministicGasConfig.GasRequiredByMessage msg).2 = true :=
      hall msg (List.mem_cons_self _ _)
    have hrest : c.DeterministicGasConfig.AllRegistered msgs :=
      fun m hm => hall m (List.mem_cons_of_mem _ hm)
    rcases hg : c.DeterministicGasConfig.GasRequiredByMessage msg with ⟨g, f⟩
    rw [hg] at hmsg
    simp only at hmsg
    subst hmsg
    have hstep : c.multiSendLoop (msg :: msgs) total = c.multiSendLoop msgs ((total + g) % 2 ^ 64) := by
      simp [ChainContext.multiSendLoop, hg]
    rw [hstep, ih _ (Nat.mod_lt _ (by norm_num)) hrest]
    simp only [Config.requiredGas, hg, List.map_cons, List.sum_cons]
    congr 1
    omega

theorem ChainContext.gasLimitLoop_unregistered (c : ChainContext) :
    ∀ (msgs : List Msg) (total : Nat),
      (∃ msg ∈ msgs, (c.DeterministicGasConfig.GasRequiredByMessage msg).2 = false) →
      ∃ message, c.gasLimitLoop msgs total = Outcome.panic message := by
  intro msgs
  induction msgs with
  | nil => intro total h; simp at h
  | cons msg msgs ih =>
    intro total h
    rcases hg : c.DeterministicGasConfig.GasRequiredByMessage msg with ⟨g, f⟩
    cases f with
    | false =>
      exact ⟨"unsuported message type for deterministic gas: " ++ msg.goType,
        by simp [ChainContext.gasLimitLoop, hg]⟩
    | true =>
      obtain ⟨m, hm, hf⟩ := h
      rcases List.mem_cons.mp hm with rfl | hm'
      · rw [hg] at hf; simp at hf
      · obtain ⟨message, hp⟩ := ih
          ((total + (g + c.DeterministicGasConfig.FixedGas) % 2 ^ 64) % 2 ^ 64) ⟨m, hm', hf⟩
        have hstep : c.gasLimitLoop (msg :: msgs) total = c.gasLimitLoop msgs ((total + (g + c.DeterministicGasConfig.FixedGas) % 2 ^ 64) % 2 ^ 64) := by
          simp [ChainContext.gasLimitLoop, hg]
        exact ⟨message, by rw [hstep, hp]⟩

theorem ChainContext.multiSendLoop_unregistered (c : ChainContext) :
    ∀ (msgs : List Msg) (total : Nat),
      (∃ msg ∈ msgs, (c.DeterministicGasConfig.GasRequiredByMessage msg).2 = false) →
      ∃ message, c.multiSendLoop msgs total = Outcome.panic message := by
  intro msgs
  induction msgs with
  | nil => intro total h; simp at h
  | cons msg msgs ih =>
    intro total h
    rcases hg : c.DeterministicGasConfig.GasRequiredByMessage msg with ⟨g, f⟩
    cases f with
    | false =>
      exact ⟨"unsuported message type for deterministic gas: " ++ msg.goType,
        by simp [ChainContext.multiSendLoop, hg]⟩
    | true =>
      obtain ⟨m, hm, hf⟩ := h
      rcases List.mem_cons.mp hm with rfl | hm'
      · rw [hg] at hf; simp at hf
      · obtain ⟨message, hp⟩ := ih ((total + g) % 2 ^ 64) ⟨m, hm', hf⟩
        have hstep : c.multiSendLoop (msg :: msgs) total = c.multiSendLoop msgs ((total + g) % 2 ^ 64) := by
          simp [ChainContext.multiSendLoop, hg]
        exact ⟨message, by rw [hstep, hp]⟩

theorem Config.not_allRegistered_iff (c : Config) (msgs : List Msg) :
    ¬ c.AllRegistered msgs ↔ ∃ msg ∈ msgs, (c.GasRequiredByMessage msg).2 = false := by
  simp [Config.AllRegistered]

theorem sum_map_add_const (f : Msg → Nat) (k : Nat) (msgs : List Msg) :
    (msgs.map (fun msg => f msg + k)).sum = (msgs.map f).sum + msgs.length * k := by
  induction msgs with
  | nil => simp
  | cons m ms ih =>
    simp only [List.map_cons, List.sum_cons, List.length_cons, ih]
    ring
/-! ## Claims on the gas limits of the test chain -/

/-- C12: for every list of messages that are all registered, `GasLimitByMsgs`
returns the sum over the messages of (the required gas of the message +
`FixedGas`), `FixedGas` being added once per message, in 64-bit unsigned
arithmetic; for the empty list it returns 0. -/
theorem GasLimitByMsgs_sum (c : ChainContext) (msgs : List Msg)
    (hall : c.DeterministicGasConfig.AllRegistered msgs) :
    c.GasLimitByMsgs msgs =
        Outcome.value ((msgs.map (fun msg =>
          c.DeterministicGasConfig.requiredGas msg + c.DeterministicGasConfig.FixedGas)).sum
          % 2 ^ 64) ∧
      (msgs.map (fun msg =>
          c.DeterministicGasConfig.requiredGas msg + c.DeterministicGasConfig.FixedGas)).sum =
        (msgs.map c.DeterministicGasConfig.requiredGas).sum +
          msgs.length * c.DeterministicGasConfig.FixedGas ∧
      c.GasLimitByMsgs [] = Outcome.value 0 := by
  refine ⟨?_, sum_map_add_const _ _ _, rfl⟩
  unfold ChainContext.GasLimitByMsgs
  rw [ChainContext.gasLimitLoop_registered c msgs 0 (by norm_num) hall]
  simp

/-- Witness of C12: three registered messages, 1000 + 0 + 1000 gas and three
times `FixedGas = 50`. -/
theorem GasLimitByMsgs_sum_witness :
    exampleChain.GasLimitByMsgs [msgSend, msgFree, msgSend] = Outcome.value 2150 :=
  (GasLimitByMsgs_sum exampleChain [msgSend, msgFree, msgSend] (by decide)).1

/-- C13: `GasLimitByMsgs` and `GasLimitByMultiSendMsgs` panic if and only if at
least one of the passed messages has a type that is not in the registry; when
every message is registered they return a value. -/
theorem GasLimit_panics_iff_unregistered (c : ChainContext) (msgs : List Msg) :
    ((∃ message, c.GasLimitByMsgs msgs = Outcome.panic message) ↔
        ∃ msg ∈ msgs, (c.DeterministicGasConfig.GasRequiredByMessage msg).2 = false) ∧
      ((∃ message, c.GasLimitByMultiSendMsgs msgs = Outcome.panic message) ↔
        ∃ msg ∈ msgs, (c.DeterministicGasConfig.GasRequiredByMessage msg).2 = false) ∧
      ((∀ msg ∈ msgs, (c.DeterministicGasConfig.GasRequiredByMessage msg).2 = true) →
        (∃ v, c.GasLimitByMsgs msgs = Outcome.value v) ∧
          ∃ v, c.GasLimitByMultiSendMsgs msgs = Outcome.value v) := by
  have hvalue : c.DeterministicGasConfig.AllRegistered msgs →
      (∃ v, c.GasLimitByMsgs msgs = Outcome.value v) ∧
        ∃ v, c.GasLimitByMultiSendMsgs msgs = Outcome.value v := by
    intro hall
    constructor
    · exact ⟨_, ChainContext.gasLimitLoop_registered c msgs 0 (by norm_num) hall⟩
    · unfold ChainContext.GasLimitByMultiSendMsgs
      rw [ChainContext.multiSendLoop_registered c msgs 0 (by norm_num) hall]
      exact ⟨_, rfl⟩
  refine ⟨⟨?_, ?_⟩, ⟨?_, ?_⟩, hvalue⟩
  · rintro ⟨message, hp⟩
    by_contra hno
    have hall : c.DeterministicGasConfig.AllRegistered msgs := by
      by_contra h
      exact hno ((Config.not_allRegistered_iff _ _).mp h)
    obtain ⟨v, hv⟩ := (hvalue hall).1
    rw [hv] at hp
    simp at hp
  · intro h
    exact ChainContext.gasLimitLoop_unregistered c msgs 0 h
  · rintro ⟨message, hp⟩
    by_contra hno
    have hall : c.DeterministicGasConfig.AllRegistered msgs := by
      by_contra h
      exact hno ((Config.not_allRegistered_iff _ _).mp h)
    obtain ⟨v, hv⟩ := (hvalue hall).2
    rw [hv] at hp
    simp at hp
  · intro h
    obtain ⟨message, hp⟩ := ChainContext.multiSendLoop_unregistered c msgs 0 h
    exact ⟨message, by simp [ChainContext.GasLimitByMultiSendMsgs, hp]⟩

/-- C14, as the code has it: for every list of registered messages, the empty
list included, `GasLimitByMultiSendMsgs` returns the sum of the required gas of
the messages plus `FixedGas` exactly once, whatever the number of messages, in
64-bit unsigned arithmetic; this is the exact sum whenever it fits in 64
bits. -/
theorem GasLimitByMultiSendMsgs_sum (c : ChainContext) (msgs : List Msg)
    (hall : c.DeterministicGasConfig.AllRegistered msgs) :
    c.GasLimitByMultiSendMsgs msgs =
        Outcome.value (((msgs.map c.DeterministicGasConfig.requiredGas).sum +
          c.DeterministicGasConfig.FixedGas) % 2 ^ 64) ∧
      ((msgs.map c.DeterministicGasConfig.requiredGas).sum +
          c.DeterministicGasConfig.FixedGas < 2 ^ 64 →
        c.GasLimitByMultiSendMsgs msgs =
          Outcome.value ((msgs.map c.DeterministicGasConfig.requiredGas).sum +
            c.DeterministicGasConfig.FixedGas)) := by
  have h : c.GasLimitByMultiSendMsgs msgs =
      Outcome.value (((msgs.map c.DeterministicGasConfig.requiredGas).sum +
        c.DeterministicGasConfig.FixedGas) % 2 ^ 64) := by
    unfold ChainContext.GasLimitByMultiSendMsgs
    rw [ChainContext.multiSendLoop_registered c msgs 0 (by norm_num) hall]
    simp
  refine ⟨h, fun hlt => ?_⟩
  rw [h, Nat.mod_eq_of_lt hlt]

/-- Witness of C14: three registered messages and the empty list. -/
theorem GasLimitByMultiSendMsgs_sum_witness :
    exampleChain.GasLimitByMultiSendMsgs [msgSend, msgFree, msgSend] = Outcome.value 2050 ∧
      exampleChain.GasLimitByMultiSendMsgs [] = Outcome.value 50 :=
  ⟨(GasLimitByMultiSendMsgs_sum exampleChain [msgSend, msgFree, msgSend] (by decide)).1,
    by decide⟩

/-- Counterexample to C14 as stated: four registered messages of requirement
`2 ^ 62` with `FixedGas = 50` give 50, the 64-bit sum, and not
`4 * 2 ^ 62 + 50`. -/
theorem GasLimitByMultiSendMsgs_wraps :
    hugeChain.DeterministicGasConfig.AllRegistered [msgSend, msgSend, msgSend, msgSend] ∧
      hugeChain.DeterministicGasConfig.requiredGas msgSend = 2 ^ 62 ∧
      hugeChain.DeterministicGasConfig.FixedGas = 50 ∧
      hugeChain.GasLimitByMultiSendMsgs [msgSend, msgSend, msgSend, msgSend] =
        Outcome.value 50 ∧
      hugeChain.GasLimitByMultiSendMsgs [msgSend, msgSend, msgSend, msgSend] ≠
        Outcome.value (2 ^ 62 + 2 ^ 62 + 2 ^ 62 + 2 ^ 62 + 50) := by
  decide

/-- The interceptor charges of a list of registered messages on a bounded real
meter that has room for them: no panic, and the meter advances by the sum of
the requirements. -/
theorem chargeEach_registered (c : Config) (ctx : Context) (limit : Nat)
    (hlimit : limit ≤ MaxUint64) :
    ∀ (msgs : List Msg) (w : World) (consumed : Nat),
      w.Allocated ctx → w.meters ctx.gasMeter = GasMeter.basic limit consumed →
      consumed + (msgs.map c.requiredGas).sum ≤ limit → c.AllRegistered msgs →
      (chargeEach c.requirements ctx w msgs).2 = none ∧
        (chargeEach c.requirements ctx w msgs).1.meters ctx.gasMeter =
          GasMeter.basic limit (consumed + (msgs.map c.requiredGas).sum) := by
  intro msgs
  induction msgs with
  | nil =>
    intro w consumed _ hm _ _
    simp [chargeEach, hm]
  | cons msg msgs ih =>
    intro w consumed halloc hm hroom hall
    simp only [List.map_cons, List.sum_cons] at hroom
    have hmsg : (c.GasRequiredByMessage msg).2 = true := hall msg (List.mem_cons_self _ _)
    have hrest : c.AllRegistered msgs := fun m hmem => hall m (List.mem_cons_of_mem _ hmem)
    have hreg : c.requirements.GasRequiredByMessage msg = (c.requiredGas msg, true) := by
      show c.GasRequiredByMessage msg = ((c.GasRequiredByMessage msg).1, true)
      rw [← hmsg]
    have hcons : (w.GasMeter ctx).ConsumeGas (c.requiredGas msg)
        (deterministicGasDescriptor (c.requiredGas msg) msg) =
        (GasMeter.basic limit (consumed + c.requiredGas msg), none) := by
      have h1 : consumed + c.requiredGas msg ≤ MaxUint64 := by omega
      have h2 : ¬ (consumed + c.requiredGas msg > limit) := by omega
      simp [World.GasMeter, hm, GasMeter.ConsumeGas, addUint64Overflow_fit _ _ h1, h2]
    have hshape := ctxForDeterministicGas_registered w ctx msg c.requirements
      (c.requiredGas msg) hreg
    rw [World.ConsumeGas_snd, hcons] at hshape
    simp only at hshape
    have hne : ctx.gasMeter ≠ w.nextMeter := Nat.ne_of_lt halloc
    have hstep : chargeEach c.requirements ctx w (msg :: msgs) =
        chargeEach c.requirements ctx (ctxForDeterministicGas w ctx msg c.requirements).1
          msgs := by
      simp only [chargeEach]
      rw [hshape]
    have hreal := ctxForDeterministicGas_real_meter w ctx msg c.requirements
      (c.requiredGas msg) hreg halloc
    rw [hcons] at hreal
    have halloc1 : (ctxForDeterministicGas w ctx msg c.requirements).1.Allocated ctx := by
      rw [hshape]
      simp only [World.Allocated, World.NewGasMeter, World.ConsumeGas]
      exact Nat.lt_succ_of_lt halloc
    obtain ⟨h1, h2⟩ := ih (ctxForDeterministicGas w ctx msg c.requirements).1
      (consumed + c.requiredGas msg) halloc1 hreal (by omega) hrest
    rw [hstep]
    refine ⟨h1, ?_⟩
    rw [h2]
    simp only [List.map_cons, List.sum_cons, Nat.add_assoc]

/-- C19: a transaction whose gas limit is `GasLimitByMsgs(m1..mn)` has enough gas
for the charges of the interceptor: for every list of registered messages whose
sum does not overflow 64 bits, applying `ctxForDeterministicGas` once to each
message on the meter of the transaction (which may already show up to
`n * FixedGas` consumed) never panics, the gas so consumed on the real meter is
the sum of the requirements, it is at most `GasLimitByMsgs(m1..mn)`, and the
difference is exactly `n * FixedGas`. -/
theorem GasLimitByMsgs_covers_interceptor_charges (c : ChainContext) (msgs : List Msg)
    (w : World) (ctx : Context) (gasLimit consumed : Nat)
    (hall : c.DeterministicGasConfig.AllRegistered msgs)
    (hsum : (msgs.map (fun msg =>
      c.DeterministicGasConfig.requiredGas msg + c.DeterministicGasConfig.FixedGas)).sum < 2 ^ 64)
    (hlimit : c.GasLimitByMsgs msgs = Outcome.value gasLimit)
    (halloc : w.Allocated ctx)
    (hmeter : w.GasMeter ctx = GasMeter.basic gasLimit consumed)
    (hante : consumed ≤ msgs.length * c.DeterministicGasConfig.FixedGas) :
    (chargeEach c.DeterministicGasConfig.requirements ctx w msgs).2 = none ∧
      ((chargeEach c.DeterministicGasConfig.requirements ctx w msgs).1.GasMeter ctx).GasConsumed =
        consumed + (msgs.map c.DeterministicGasConfig.requiredGas).sum ∧
      (msgs.map c.DeterministicGasConfig.requiredGas).sum ≤ gasLimit ∧
      gasLimit - (msgs.map c.DeterministicGasConfig.requiredGas).sum =
        msgs.length * c.DeterministicGasConfig.FixedGas := by
  have hval : c.GasLimitByMsgs msgs = Outcome.value ((msgs.map (fun msg =>
      c.DeterministicGasConfig.requiredGas msg + c.DeterministicGasConfig.FixedGas)).sum
      % 2 ^ 64) := by
    unfold ChainContext.GasLimitByMsgs
    rw [ChainContext.gasLimitLoop_registered c msgs 0 (by norm_num) hall]
    simp
  rw [hval, Nat.mod_eq_of_lt hsum, sum_map_add_const] at hlimit
  simp only [Outcome.value.injEq] at hlimit
  rw [sum_map_add_const] at hsum
  have hmax : gasLimit ≤ MaxUint64 := by
    have : (2 : Nat) ^ 64 = MaxUint64 + 1 := by decide
    omega
  obtain ⟨h1, h2⟩ := chargeEach_registered c.DeterministicGasConfig ctx gasLimit hmax msgs w
    consumed halloc hmeter (by omega) hall
  refine ⟨h1, ?_, by omega, by omega⟩
  simp only [World.GasMeter]
  rw [h2]
  rfl

/-- Witness of C19: the messages of requirement 1000, 0 and 1000 under the gas
limit 2150. -/
theorem GasLimitByMsgs_covers_interceptor_charges_witness :
    (chargeEach exampleConfig.requirements exampleCtx txWorld [msgSend, msgFree, msgSend]).2 =
        none ∧
      ((chargeEach exampleConfig.requirements exampleCtx txWorld
          [msgSend, msgFree, msgSend]).1.GasMeter exampleCtx).GasConsumed =
        0 + ([msgSend, msgFree, msgSend].map exampleConfig.requiredGas).sum ∧
      ([msgSend, msgFree, msgSend].map exampleConfig.requiredGas).sum ≤ 2150 ∧
      2150 - ([msgSend, msgFree, msgSend].map exampleConfig.requiredGas).sum =
        [msgSend, msgFree, msgSend].length * exampleConfig.FixedGas :=
  GasLimitByMsgs_covers_interceptor_charges exampleChain [msgSend, msgFree, msgSend] txWorld
    exampleCtx 2150 0 (by decide) (by decide) (by decide) (by decide) (by decide) (by decide)

/-! ## Claim on the mainnet genesis allocation -/

/-- C17: the predefined mainnet network config funds exactly 11 genesis wallets,
with pairwise distinct addresses and one coin of the main denom each, and
their balances total 500M CORE, that is 500_000_000_000_000 base units
`= ((5 * 25_000 + 700_000 + 99_175_000) + 4 * 100_000_000) * 10 ^ 6`. -/
theorem mainFundedAccounts_total (denomMain : String) :
    (mainFundedAccounts denomMain).length = 11 ∧
      ((mainFundedAccounts denomMain).map FundedAccount.Address).Nodup ∧
      (∀ account ∈ mainFundedAccounts denomMain,
        account.Balances.map Coin.Denom = [denomMain]) ∧
      totalFunded (mainFundedAccounts denomMain) = 500000000000000 ∧
      totalFunded (mainFundedAccounts denomMain) =
        ((5 * 25000 + 700000 + 99175000) + 4 * 100000000) * baseUnitsPerCore ∧
      totalFunded (mainFundedAccounts denomMain) = 500000000 * baseUnitsPerCore := by
  refine ⟨rfl, ?_, ?_, rfl, rfl, rfl⟩
  · simp [mainFundedAccounts]
  · intro account h
    simp only [mainFundedAccounts, List.mem_cons, List.mem_singleton, List.not_mem_nil,
      or_false] at h
    rcases h with h | h | h | h | h | h | h | h | h | h | h <;> subst h <;> rfl

/-! ## Claim on the reported drift -/

/-- A charge that does not panic advances the meter by the amount, and a
non-zero amount then fits in 64 bits together with what was consumed. -/
theorem GasMeter.ConsumeGas_none (m : GasMeter) (amount : Nat) (d : String)
    (h : (m.ConsumeGas amount d).2 = none) :
    (m.ConsumeGas amount d).1.GasConsumed = m.GasConsumed + amount ∧
      (amount ≠ 0 → m.GasConsumed + amount ≤ MaxUint64) := by
  cases m with
  | basic limit consumed =>
    by_cases hov : MaxUint64 - consumed < amount
    · simp [GasMeter.ConsumeGas, addUint64Overflow, hov] at h
    · by_cases hl : consumed + amount > limit
      · simp [GasMeter.ConsumeGas, addUint64Overflow, hov, hl] at h
      · refine ⟨by simp [GasMeter.ConsumeGas, addUint64Overflow, hov, hl, GasMeter.GasConsumed],
          fun hne => ?_⟩
        simp only [GasMeter.GasConsumed]
        omega
  | infinite consumed =>
    by_cases hov : MaxUint64 - consumed < amount
    · simp [GasMeter.ConsumeGas, addUint64Overflow, hov] at h
    · refine ⟨by simp [GasMeter.ConsumeGas, addUint64Overflow, hov, GasMeter.GasConsumed],
        fun hne => ?_⟩
      simp only [GasMeter.GasConsumed]
      omega

/-- C18, as the code has it: the drift sample reported for a successfully
executed registered message (requirement not zero, DeliverTx phase, handler that
reaches gas meters only through its context) has the exact ratio
`nondeterministicGas / gasRequired`, where `nondeterministicGas` is the gas
consumed at handler completion on the substituted meter, the one the handler ran
under, and `gasRequired` is the requirement of the registry for that message
type; the sample is labelled with the protobuf name of the message. -/
theorem drift_sample_ratio (reqs : DeterministicGasRequirements) (handler : Handler)
    (w : World) (sdkCtx : Context) (msg : Msg) (gasRequired : Nat)
    (newCtx : Context) (gasBefore : Nat) (isDeterministic : Bool) (r : HandlerReturn)
    (hreg : reqs.GasRequiredByMessage msg = (gasRequired, true))
    (hpos : gasRequired ≠ 0)
    (h64 : gasRequired < 2 ^ 64)
    (halloc : w.Allocated sdkCtx)
    (hlocal : MeterLocal handler)
    (hphase : sdkCtx.IsCheckTx = false ∧ sdkCtx.IsReCheckTx = false)
    (hret : (ctxForDeterministicGas w sdkCtx msg reqs).2 =
      Completion.returned (newCtx, gasBefore, isDeterministic))
    (hrun : (handler (ctxForDeterministicGas w sdkCtx msg reqs).1 newCtx msg).2 =
      Completion.returned r)
    (herr : r.err = none) :
    ∃ s : MetricSample,
      (deterministicMsgServer.handler reqs handler w sdkCtx msg).1.samples =
          (handler (ctxForDeterministicGas w sdkCtx msg reqs).1 newCtx msg).1.samples ++ [s] ∧
        s.nondeterministicGas =
          ((handler (ctxForDeterministicGas w sdkCtx msg reqs).1 newCtx msg).1.GasMeter
            newCtx).GasConsumed ∧
        s.deterministicGas = gasRequired ∧
        s.msgName = msg.protoName ∧
        s.ratio =
          (((handler (ctxForDeterministicGas w sdkCtx msg reqs).1 newCtx msg).1.GasMeter
            newCtx).GasConsumed : ℚ) / (gasRequired : ℚ) := by
  have hne : sdkCtx.gasMeter ≠ w.nextMeter := Nat.ne_of_lt halloc
  have hshape := ctxForDeterministicGas_registered w sdkCtx msg reqs gasRequired hreg
  have hreal := ctxForDeterministicGas_real_meter w sdkCtx msg reqs gasRequired hreg halloc
  rcases hc : (w.ConsumeGas sdkCtx gasRequired (deterministicGasDescriptor gasRequired msg)).2
    with _ | p
  · rw [hc] at hshape
    simp only at hshape
    rw [World.ConsumeGas_snd] at hc
    obtain ⟨hcons, hfit⟩ := GasMeter.ConsumeGas_none _ _ _ hc
    have hfit := hfit hpos
    rw [hshape] at hret
    simp only [Completion.returned.injEq, Prod.mk.injEq] at hret
    obtain ⟨hctx, hgb, hdet⟩ := hret
    subst hctx hgb hdet
    have hkeep := hlocal (ctxForDeterministicGas w sdkCtx msg reqs).1
      (sdkCtx.WithGasMeter w.nextMeter) msg sdkCtx.gasMeter hne
    have hdetgas : subUint64
        (((handler (ctxForDeterministicGas w sdkCtx msg reqs).1
          (sdkCtx.WithGasMeter w.nextMeter) msg).1.GasMeter sdkCtx).GasConsumed)
        (w.GasMeter sdkCtx).GasConsumed = gasRequired := by
      have h1 : ((handler (ctxForDeterministicGas w sdkCtx msg reqs).1
          (sdkCtx.WithGasMeter w.nextMeter) msg).1.GasMeter sdkCtx).GasConsumed =
          (w.GasMeter sdkCtx).GasConsumed + gasRequired := by
        rw [World.GasMeter, hkeep]
        rw [World.GasMeter] at hreal
        rw [hreal, hcons]
      rw [h1]
      have hM : MaxUint64 = 2 ^ 64 - 1 := rfl
      unfold subUint64
      omega
    unfold deterministicMsgServer.handler
    rcases hres : ctxForDeterministicGas w sdkCtx msg reqs with ⟨w1, c1⟩
    have hc1 : c1 = Completion.returned
        (sdkCtx.WithGasMeter w.nextMeter, (w.GasMeter sdkCtx).GasConsumed, true) := by
      have := congrArg Prod.snd hshape
      rw [hres] at this
      exact this
    subst hc1
    rw [hres] at hrun hdetgas
    simp only at hrun hdetgas ⊢
    rcases hh : handler w1 (sdkCtx.WithGasMeter w.nextMeter) msg with ⟨w2, c2⟩
    rw [hh] at hrun hdetgas
    simp only at hrun hdetgas ⊢
    subst hrun
    have hcond : r.err = none ∧ True ∧
        (sdkCtx.WithGasMeter w.nextMeter).IsCheckTx = false ∧
        (sdkCtx.WithGasMeter w.nextMeter).IsReCheckTx = false :=
      ⟨herr, trivial, hphase.1, hphase.2⟩
    simp only [if_pos hcond, reportDeterministicGasMetric, hdetgas, if_neg hpos,
      World.AddSample]
    exact ⟨_, rfl, rfl, rfl, rfl, rfl⟩
  · rw [hc] at hshape
    simp only at hshape
    rw [hshape] at hret
    simp at hret

/-- Witness of C18: a handler that consumes 500 gas under the requirement 1000. -/
theorem drift_sample_ratio_witness :
    ∃ s : MetricSample,
      (deterministicMsgServer.handler exampleConfig.requirements (scriptHandler cheapScript)
          exampleWorld exampleCtx msgSend).1.samples =
          ((scriptHandler cheapScript)
            (ctxForDeterministicGas exampleWorld exampleCtx msgSend
              exampleConfig.requirements).1
            { gasMeter := 1, checkTx := false, recheckTx := false } msgSend).1.samples ++ [s] ∧
        s.nondeterministicGas =
          (((scriptHandler cheapScript)
            (ctxForDeterministicGas exampleWorld exampleCtx msgSend
              exampleConfig.requirements).1
            { gasMeter := 1, checkTx := false, recheckTx := false } msgSend).1.GasMeter
            { gasMeter := 1, checkTx := false, recheckTx := false }).GasConsumed ∧
        s.deterministicGas = 1000 ∧
        s.msgName = msgSend.protoName ∧
        s.ratio =
          ((((scriptHandler cheapScript)
            (ctxForDeterministicGas exampleWorld exampleCtx msgSend
              exampleConfig.requirements).1
            { gasMeter := 1, checkTx := false, recheckTx := false } msgSend).1.GasMeter
            { gasMeter := 1, checkTx := false, recheckTx := false }).GasConsumed : ℚ) /
            ((1000 : Nat) : ℚ) :=
  drift_sample_ratio exampleConfig.requirements (scriptHandler cheapScript) exampleWorld
    exampleCtx msgSend 1000 { gasMeter := 1, checkTx := false, recheckTx := false } 7 true
    { res := some "ok", err := none } (by decide) (by decide) (by decide) (by decide)
    (scriptHandler_meterLocal cheapScript) (by decide) (by decide) (by decide) (by decide)

/-- Counterexample to C18 as stated: under the requirement 1000, with 7 gas
consumed before and a handler that consumes 500 gas, the sample has the ratio
500 / 1000, while the gas consumed on the real meter at handler completion is
1007. -/
theorem drift_sample_is_not_real_meter_ratio :
    (deterministicMsgServer.handler exampleConfig.requirements (scriptHandler cheapScript)
        exampleWorld exampleCtx msgSend).1.samples = [exampleSample] ∧
      exampleSample.nondeterministicGas = 500 ∧ exampleSample.deterministicGas = 1000 ∧
      ((deterministicMsgServer.handler exampleConfig.requirements (scriptHandler cheapScript)
        exampleWorld exampleCtx msgSend).1.GasMeter exampleCtx).GasConsumed = 1007 ∧
      exampleSample.ratio ≠ (1007 : ℚ) / (1000 : ℚ) := by
  refine ⟨by decide, by decide, by decide, by decide, ?_⟩
  norm_num [MetricSample.ratio, exampleSample]

/-! ## Lemmas on the decimal arithmetic -/

/-- An integer number of units is left unchanged by the rounding. -/
theorem chopPrecisionAndRound_mul (k : Int) :
    chopPrecisionAndRound (k * 10 ^ Dec.Precision) = k := by
  have hP : (10 : Int) ^ Dec.Precision = ((10 ^ 18 : Nat) : Int) := by
    simp [Dec.Precision]
  have habs : (k * 10 ^ Dec.Precision).natAbs = k.natAbs * 10 ^ 18 := by
    rw [hP, Int.natAbs_mul, Int.natAbs_ofNat]
  unfold chopPrecisionAndRound
  have hq : k.natAbs * 10 ^ 18 / 10 ^ 18 = k.natAbs := Nat.mul_div_cancel _ (by norm_num)
  have hr : k.natAbs * 10 ^ 18 % 10 ^ 18 = 0 := Nat.mul_mod_left _ _
  simp only [Dec.Precision] at habs ⊢
  simp only [habs, hq, hr, if_true]
  by_cases hk : k < 0
  · have : k * 10 ^ 18 < 0 := by omega
    rw [if_pos this]
    omega
  · have : ¬ (k * 10 ^ 18 < 0) := by omega
    rw [if_neg this]
    omega

/-- The truncated quotient and remainder, with the sign of the remainder. -/
theorem tdiv_tmod_spec (x : Int) :
    10 ^ 18 * x.tdiv (10 ^ 18) + x.tmod (10 ^ 18) = x ∧
      (0 ≤ x → 0 ≤ x.tmod (10 ^ 18) ∧ x.tmod (10 ^ 18) < 10 ^ 18) ∧
      (x < 0 → -(10 ^ 18) < x.tmod (10 ^ 18) ∧ x.tmod (10 ^ 18) ≤ 0) := by
  refine ⟨Int.tdiv_add_tmod x _, fun h => ⟨Int.tmod_nonneg _ h, Int.tmod_lt_of_pos _ (by norm_num)⟩,
    fun h => ?_⟩
  have hneg : (-x).tmod (10 ^ 18) = -(x.tmod (10 ^ 18)) := by
    rw [Int.tmod_def, Int.tmod_def, Int.neg_tdiv]
    ring
  have h1 : 0 ≤ (-x).tmod (10 ^ 18) := Int.tmod_nonneg _ (by omega)
  have h2 : (-x).tmod (10 ^ 18) < 10 ^ 18 := Int.tmod_lt_of_pos _ (by norm_num)
  omega

/-- The decimal `Ceil` is the ceiling of the division by `10 ^ 18`. -/
theorem Dec.Ceil_raw (d : Dec) :
    (Dec.Ceil d).raw = (-((-d.raw) / 10 ^ 18)) * 10 ^ Dec.Precision := by
  obtain ⟨h1, h2, h3⟩ := tdiv_tmod_spec d.raw
  unfold Dec.Ceil
  simp only [Dec.Precision] at *
  by_cases hz : d.raw.tmod (10 ^ 18) = 0
  · simp only [hz, if_true, Dec.NewDec, Dec.Precision]
    congr 1
    omega
  · by_cases hn : d.raw.tmod (10 ^ 18) < 0
    · simp only [hz, hn, if_true, if_false, Dec.NewDec, Dec.Precision]
      congr 1
      by_cases hx : 0 ≤ d.raw
      · have := h2 hx
        omega
      · have := h3 (by omega)
        omega
    · simp only [hz, hn, if_false, Dec.NewDec, Dec.Precision]
      congr 1
      by_cases hx : 0 ≤ d.raw
      · have := h2 hx
        omega
      · have := h3 (by omega)
        omega

/-- The conversion to `int64` keeps a gas value below `2 ^ 63`. -/
theorem int64OfUint64_small (gas : Nat) (h : gas < 2 ^ 63) : int64OfUint64 gas = (gas : Int) := by
  unfold int64OfUint64
  have h1 : gas % 2 ^ 64 = gas := Nat.mod_eq_of_lt (by omega)
  rw [h1, if_pos h]

theorem intOverflowBound_eq : intOverflowBound = 2 ^ maxBitLen := by
  norm_num [intOverflowBound, maxBitLen]

theorem decOverflowBound_eq : decOverflowBound = 2 ^ maxDecBitLen := by
  norm_num [decOverflowBound, maxDecBitLen]

/-- A product within the decimal range has its ceiling within the integer range. -/
theorem ceil_within_int_range (x : Int) (h : x.natAbs < decOverflowBound) :
    (-((-x) / 10 ^ 18)).natAbs < intOverflowBound := by
  unfold decOverflowBound at h
  unfold intOverflowBound
  omega

/-- For a gas value below `2 ^ 63` and a product within the decimal range the fee
is the integer ceiling of price times gas. -/
theorem feeAmount_small (gasPrice : Dec) (gas : Nat) (h : gas < 2 ^ 63)
    (hdec : (gasPrice.raw * (gas : Int)).natAbs < decOverflowBound) :
    feeAmount gasPrice gas = Outcome.value (ceilFee gasPrice gas) := by
  have hmul : gasPrice.Mul (Dec.NewDec (int64OfUint64 gas)) =
      Outcome.value { raw := gasPrice.raw * (gas : Int) } := by
    unfold Dec.Mul Dec.NewDec
    simp only [int64OfUint64_small gas h]
    rw [← Int.mul_assoc, chopPrecisionAndRound_mul]
    rw [if_neg (by omega)]
  have hround : (Dec.Ceil { raw := gasPrice.raw * (gas : Int) }).RoundInt =
      Outcome.value (ceilFee gasPrice gas) := by
    unfold Dec.RoundInt
    rw [Dec.Ceil_raw, chopPrecisionAndRound_mul]
    unfold NewIntFromBigInt
    have hceil := ceil_within_int_range _ hdec
    dsimp only
    rw [if_neg (Nat.not_le.mpr hceil)]
    rfl
  unfold feeAmount
  rw [hmul]
  exact hround

/-- The integer ceiling `ceilFee` is the ceiling of the rational product of price
and gas. -/
theorem ceilFee_eq_ceil (gasPrice : Dec) (gas : Nat) :
    ceilFee gasPrice gas = ⌈gasPrice.toRat * (gas : ℚ)⌉ := by
  have h : gasPrice.toRat * (gas : ℚ) =
      -((((-(gasPrice.raw * (gas : Int)) : Int) : ℚ)) / ((10 ^ 18 : Nat) : ℚ)) := by
    unfold Dec.toRat
    simp only [Dec.Precision]
    push_cast
    ring
  rw [h, Int.ceil_neg, Rat.floor_intCast_div_natCast]
  unfold ceilFee
  norm_num

/-- A sum within the integer range does not panic. -/
theorem IntAdd_within (a b : Int) (h : a.natAbs + b.natAbs < intOverflowBound) :
    IntAdd a b = Outcome.value (a + b) := by
  unfold IntAdd
  rw [if_neg (by omega)]

/-! ## Lemmas on the needed balance -/

theorem ChainContext.GasLimitByMsgs_single (c : ChainContext) (msg : Msg)
    (h : (c.DeterministicGasConfig.GasRequiredByMessage msg).2 = true) :
    c.GasLimitByMsgs [msg] = Outcome.value (c.perMsgLimit msg) := by
  have hall : c.DeterministicGasConfig.AllRegistered [msg] := by
    intro m hm
    rw [List.mem_singleton] at hm
    rw [hm]; exact h
  unfold ChainContext.GasLimitByMsgs
  rw [ChainContext.gasLimitLoop_registered c [msg] 0 (by norm_num) hall]
  simp [ChainContext.perMsgLimit]

theorem ChainContext.neededBalanceLoop_registered (c : ChainContext) (gasPrice : Dec) :
    ∀ (msgs : List Msg) (totalAmount : Int), c.DeterministicGasConfig.AllRegistered msgs →
      (∀ msg ∈ msgs, c.perMsgLimit msg < 2 ^ 63) →
      (∀ msg ∈ msgs,
        (gasPrice.raw * (c.perMsgLimit msg : Int)).natAbs < decOverflowBound) →
      totalAmount.natAbs +
          (msgs.map (fun msg => (ceilFee gasPrice (c.perMsgLimit msg)).natAbs)).sum <
        intOverflowBound →
      c.neededBalanceLoop gasPrice msgs totalAmount =
        Outcome.value (totalAmount +
          (msgs.map (fun msg => ceilFee gasPrice (c.perMsgLimit msg))).sum) := by
  intro msgs
  induction msgs with
  | nil => intro totalAmount _ _ _ _; simp [ChainContext.neededBalanceLoop]
  | cons msg msgs ih =>
    intro totalAmount hall h63 hdec hint
    have hmsg := hall msg (List.mem_cons_self _ _)
    have hrest : c.DeterministicGasConfig.AllRegistered msgs :=
      fun m hm => hall m (List.mem_cons_of_mem _ hm)
    simp only [List.map_cons, List.sum_cons] at hint ⊢
    have hfee := feeAmount_small gasPrice (c.perMsgLimit msg) (h63 msg (List.mem_cons_self _ _))
      (hdec msg (List.mem_cons_self _ _))
    have hadd := IntAdd_within totalAmount (ceilFee gasPrice (c.perMsgLimit msg)) (by omega)
    have htail := ih (totalAmount + ceilFee gasPrice (c.perMsgLimit msg)) hrest
      (fun m hm => h63 m (List.mem_cons_of_mem _ hm))
      (fun m hm => hdec m (List.mem_cons_of_mem _ hm)) (by omega)
    simp only [ChainContext.neededBalanceLoop, ChainContext.GasLimitByMsgs_single c msg hmsg,
      Outcome.bind, hfee, hadd, htail, Int.add_assoc]

/-- Under the range provisos `ComputeNeededBalanceFromOptions` returns the sum of
the integer ceilings and the amount. -/
theorem ChainContext.ComputeNeededBalanceFromOptions_value (c : ChainContext)
    (options : BalancesOptions)
    (hall : c.DeterministicGasConfig.AllRegistered options.Messages)
    (h63 : ∀ msg ∈ options.Messages, c.perMsgLimit msg < 2 ^ 63)
    (hN : options.NondeterministicMessagesGas < 2 ^ 63)
    (hdec : ∀ msg ∈ options.Messages,
      ((c.effectiveGasPrice options).raw * (c.perMsgLimit msg : Int)).natAbs <
        decOverflowBound)
    (hdecN : ((c.effectiveGasPrice options).raw *
      (options.NondeterministicMessagesGas : Int)).natAbs < decOverflowBound)
    (hint : (options.Messages.map (fun msg =>
          (ceilFee (c.effectiveGasPrice options) (c.perMsgLimit msg)).natAbs)).sum +
        (ceilFee (c.effectiveGasPrice options) options.NondeterministicMessagesGas).natAbs +
        (ChainContext.effectiveAmount options).natAbs < intOverflowBound) :
    c.ComputeNeededBalanceFromOptions options =
      Outcome.value
        ((options.Messages.map (fun msg =>
            ceilFee (c.effectiveGasPrice options) (c.perMsgLimit msg))).sum +
          ceilFee (c.effectiveGasPrice options) options.NondeterministicMessagesGas +
          ChainContext.effectiveAmount options) := by
  have hloop := ChainContext.neededBalanceLoop_registered c (c.effectiveGasPrice options)
    options.Messages 0 hall h63 hdec (by simp only [Int.natAbs_zero]; omega)
  have hfee := feeAmount_small (c.effectiveGasPrice options)
    options.NondeterministicMessagesGas hN hdecN
  have habs : ((options.Messages.map (fun msg =>
        ceilFee (c.effectiveGasPrice options) (c.perMsgLimit msg))).sum).natAbs ≤
      (options.Messages.map (fun msg =>
        (ceilFee (c.effectiveGasPrice options) (c.perMsgLimit msg)).natAbs)).sum := by
    generalize options.Messages = msgs
    induction msgs with
    | nil => simp
    | cons m ms ih =>
      simp only [List.map_cons, List.sum_cons]
      omega
  rw [Int.zero_add] at hloop
  have hadd1 := IntAdd_within
    ((options.Messages.map (fun msg =>
      ceilFee (c.effectiveGasPrice options) (c.perMsgLimit msg))).sum)
    (ceilFee (c.effectiveGasPrice options) options.NondeterministicMessagesGas)
    (by omega)
  have hadd2 := IntAdd_within
    ((options.Messages.map (fun msg =>
      ceilFee (c.effectiveGasPrice options) (c.perMsgLimit msg))).sum +
      ceilFee (c.effectiveGasPrice options) options.NondeterministicMessagesGas)
    (ChainContext.effectiveAmount options)
    (by omega)
  unfold ChainContext.ComputeNeededBalanceFromOptions
  simp only [hloop, Outcome.bind, hfee, hadd1, hadd2]

/-- The 64-bit sum of `GasLimitByMsgs` in terms of the limits of the single messages. -/
theorem ChainContext.GasLimitByMsgs_perMsg (c : ChainContext) (msgs : List Msg)
    (hall : c.DeterministicGasConfig.AllRegistered msgs) :
    c.GasLimitByMsgs msgs = Outcome.value ((msgs.map c.perMsgLimit).sum % 2 ^ 64) := by
  unfold ChainContext.GasLimitByMsgs
  rw [ChainContext.gasLimitLoop_registered c msgs 0 (by norm_num) hall]
  congr 1
  rw [Nat.zero_add]
  induction msgs with
  | nil => rfl
  | cons msg msgs ih =>
    have hrest : c.DeterministicGasConfig.AllRegistered msgs :=
      fun m hm => hall m (List.mem_cons_of_mem _ hm)
    have := ih hrest
    simp only [List.map_cons, List.sum_cons, ChainContext.perMsgLimit] at this ⊢
    omega

/-- Rounding up each term exceeds rounding up the sum by less than the number
of terms. -/
theorem sum_ceil_bounds (p : Int) :
    ∀ (xs : List Nat) (x0 : Nat),
      -((-(p * ((x0 + xs.sum : Nat) : Int))) / 10 ^ 18) ≤
          -((-(p * (x0 : Int))) / 10 ^ 18) +
            (xs.map (fun (x : Nat) => -((-(p * (x : Int))) / 10 ^ 18))).sum ∧
        -((-(p * (x0 : Int))) / 10 ^ 18) +
            (xs.map (fun (x : Nat) => -((-(p * (x : Int))) / 10 ^ 18))).sum ≤
          -((-(p * ((x0 + xs.sum : Nat) : Int))) / 10 ^ 18) + (xs.length : Int) := by
  intro xs
  induction xs with
  | nil => intro x0; simp
  | cons y ys ih =>
    intro x0
    obtain ⟨h1, h2⟩ := ih (x0 + y)
    have hsum : ((x0 + (y :: ys).sum : Nat) : Int) = ((x0 + y + ys.sum : Nat) : Int) := by
      simp only [List.sum_cons]
      push_cast
      ring
    have hmul : p * ((x0 + y : Nat) : Int) = p * (x0 : Int) + p * (y : Int) := by
      push_cast
      ring
    rw [hsum]
    simp only [List.map_cons, List.sum_cons, List.length_cons]
    rw [hmul] at h1 h2
    generalize p * (x0 : Int) = a at *
    generalize p * (y : Int) = b at *
    generalize p * ((x0 + y + ys.sum : Nat) : Int) = t at *
    generalize (ys.map (fun (x : Nat) => -((-(p * (x : Int))) / 10 ^ 18))).sum = s at *
    push_cast
    omega

/-! ## Claims on the needed balance -/

/-- C15, as the code has it: for registered messages `m1..mn` whose single gas
limits `GasLimitByMsgs(mi)` and whose `NondeterministicMessagesGas` are below
`2 ^ 63`, with every product of price and gas within the range of the decimals
of the host runtime (315 bits) and the addends, taken in absolute value,
together within the range of its integers (256 bits),
`ComputeNeededBalanceFromOptions` returns the sum over `i` of
`ceil(GasPrice * GasLimitByMsgs(mi))` plus
`ceil(GasPrice * NondeterministicMessagesGas)` plus `Amount`, where a nil
`GasPrice` is replaced by `InitialGasPrice` of the fee model and a nil `Amount`
by zero; each product is rounded up to an integer separately. -/
theorem ComputeNeededBalanceFromOptions_sum (c : ChainContext) (options : BalancesOptions)
    (hall : c.DeterministicGasConfig.AllRegistered options.Messages)
    (h63 : ∀ msg ∈ options.Messages, c.perMsgLimit msg < 2 ^ 63)
    (hN : options.NondeterministicMessagesGas < 2 ^ 63)
    (hdec : ∀ msg ∈ options.Messages,
      ((c.effectiveGasPrice options).raw * (c.perMsgLimit msg : Int)).natAbs <
        decOverflowBound)
    (hdecN : ((c.effectiveGasPrice options).raw *
      (options.NondeterministicMessagesGas : Int)).natAbs < decOverflowBound)
    (hint : (options.Messages.map (fun msg =>
          (ceilFee (c.effectiveGasPrice options) (c.perMsgLimit msg)).natAbs)).sum +
        (ceilFee (c.effectiveGasPrice options) options.NondeterministicMessagesGas).natAbs +
        (ChainContext.effectiveAmount options).natAbs < intOverflowBound) :
    c.ComputeNeededBalanceFromOptions options =
        Outcome.value
          ((options.Messages.map (fun msg =>
              ⌈(c.effectiveGasPrice options).toRat * ((c.perMsgLimit msg : Nat) : ℚ)⌉)).sum +
            ⌈(c.effectiveGasPrice options).toRat *
              ((options.NondeterministicMessagesGas : Nat) : ℚ)⌉ +
            ChainContext.effectiveAmount options) ∧
      (∀ msg ∈ options.Messages, c.GasLimitByMsgs [msg] = Outcome.value (c.perMsgLimit msg)) ∧
      (∀ gas : Nat, ceilFee (c.effectiveGasPrice options) gas =
        ⌈(c.effectiveGasPrice options).toRat * (gas : ℚ)⌉) ∧
      (options.GasPrice = none → c.effectiveGasPrice options = c.InitialGasPrice) ∧
      (options.Amount = none → ChainContext.effectiveAmount options = 0) := by
  refine ⟨?_, fun msg hm => ChainContext.GasLimitByMsgs_single c msg (hall msg hm),
    fun gas => ceilFee_eq_ceil _ gas, ?_, ?_⟩
  · rw [ChainContext.ComputeNeededBalanceFromOptions_value c options hall h63 hN hdec hdecN hint]
    have hmap : options.Messages.map
          (fun msg => ceilFee (c.effectiveGasPrice options) (c.perMsgLimit msg)) =
        options.Messages.map (fun msg =>
          ⌈(c.effectiveGasPrice options).toRat * ((c.perMsgLimit msg : Nat) : ℚ)⌉) :=
      List.map_congr_left (fun msg _ => ceilFee_eq_ceil _ _)
    rw [hmap, ceilFee_eq_ceil]
  · intro h
    simp [ChainContext.effectiveGasPrice, h]
  · intro h
    simp [ChainContext.effectiveAmount, h]

/-- Witness of C15: messages of gas limit 1050 and 50, 10 gas of other messages,
the default gas price 0.0625 and the amount 5. -/
theorem ComputeNeededBalanceFromOptions_sum_witness :
    exampleChain.ComputeNeededBalanceFromOptions exampleOptions =
      Outcome.value
        ((exampleOptions.Messages.map (fun msg =>
            ⌈(exampleChain.effectiveGasPrice exampleOptions).toRat *
              ((exampleChain.perMsgLimit msg : Nat) : ℚ)⌉)).sum +
          ⌈(exampleChain.effectiveGasPrice exampleOptions).toRat *
            ((exampleOptions.NondeterministicMessagesGas : Nat) : ℚ)⌉ +
          ChainContext.effectiveAmount exampleOptions) :=
  (ComputeNeededBalanceFromOptions_sum exampleChain exampleOptions (by decide) (by decide)
    (by decide) (by decide) (by decide) (by decide)).1

/-- Counterexample to C15 as stated. With no message, the gas price 1 and
`NondeterministicMessagesGas = 2 ^ 63`, the conversion to `int64` makes the
result `-(2 ^ 63)`, while `ceil(GasPrice * NondeterministicMessagesGas)` is
`2 ^ 63`. With one registered message of gas limit `2 ^ 62 + 50` and the gas
price `10 ^ 70` the product leaves the range of the decimals and the call
panics instead of returning the sum. -/
theorem ComputeNeededBalanceFromOptions_int64_wraps :
    exampleChain.ComputeNeededBalanceFromOptions hugeGasOptions =
        Outcome.value (-9223372036854775808) ∧
      ⌈(exampleChain.effectiveGasPrice hugeGasOptions).toRat *
          ((hugeGasOptions.NondeterministicMessagesGas : Nat) : ℚ)⌉ = 9223372036854775808 ∧
      exampleChain.ComputeNeededBalanceFromOptions hugeGasOptions ≠
        Outcome.value
          ((hugeGasOptions.Messages.map (fun msg =>
              ⌈(exampleChain.effectiveGasPrice hugeGasOptions).toRat *
                ((exampleChain.perMsgLimit msg : Nat) : ℚ)⌉)).sum +
            ⌈(exampleChain.effectiveGasPrice hugeGasOptions).toRat *
              ((hugeGasOptions.NondeterministicMessagesGas : Nat) : ℚ)⌉ +
            ChainContext.effectiveAmount hugeGasOptions) ∧
      hugeChain.DeterministicGasConfig.AllRegistered hugePriceOptions.Messages ∧
      (∀ msg ∈ hugePriceOptions.Messages, hugeChain.perMsgLimit msg < 2 ^ 63) ∧
      hugeChain.ComputeNeededBalanceFromOptions hugePriceOptions =
        Outcome.panic "Int overflow" := by
  have hceil : ⌈(exampleChain.effectiveGasPrice hugeGasOptions).toRat *
      ((hugeGasOptions.NondeterministicMessagesGas : Nat) : ℚ)⌉ = 9223372036854775808 := by
    rw [← ceilFee_eq_ceil]
    decide
  refine ⟨by decide, hceil, ?_, by decide, by decide, by decide⟩
  rw [hceil]
  decide

/-- C16, as the code has it: `ComputeNeededBalanceFromOptions` never under-funds
a single transaction carrying all the messages: for every non-negative
`GasPrice` and registered messages `m1..mn` (single gas limits and
`NondeterministicMessagesGas` below `2 ^ 63`), with every product of price and
gas within the range of the decimals of the host runtime (315 bits) and the
addends, taken in absolute value, together within the range of its integers
(256 bits), the call returns and the result minus `Amount` is at least
`ceil(GasPrice * (GasLimitByMsgs(m1..mn) + NondeterministicMessagesGas))`;
when the sum of the single gas limits fits in 64 bits, it exceeds that by at
most `n` base units. -/
theorem ComputeNeededBalanceFromOptions_overfunds (c : ChainContext) (options : BalancesOptions)
    (hall : c.DeterministicGasConfig.AllRegistered options.Messages)
    (h63 : ∀ msg ∈ options.Messages, c.perMsgLimit msg < 2 ^ 63)
    (hN : options.NondeterministicMessagesGas < 2 ^ 63)
    (hprice : 0 ≤ (c.effectiveGasPrice options).raw)
    (hdec : ∀ msg ∈ options.Messages,
      ((c.effectiveGasPrice options).raw * (c.perMsgLimit msg : Int)).natAbs <
        decOverflowBound)
    (hdecN : ((c.effectiveGasPrice options).raw *
      (options.NondeterministicMessagesGas : Int)).natAbs < decOverflowBound)
    (hint : (options.Messages.map (fun msg =>
          (ceilFee (c.effectiveGasPrice options) (c.perMsgLimit msg)).natAbs)).sum +
        (ceilFee (c.effectiveGasPrice options) options.NondeterministicMessagesGas).natAbs +
        (ChainContext.effectiveAmount options).natAbs < intOverflowBound) :
    ∃ (needed : Int) (gasLimit : Nat),
      c.ComputeNeededBalanceFromOptions options = Outcome.value needed ∧
        c.GasLimitByMsgs options.Messages = Outcome.value gasLimit ∧
        ⌈(c.effectiveGasPrice options).toRat *
            ((gasLimit + options.NondeterministicMessagesGas : Nat) : ℚ)⌉ ≤
          needed - ChainContext.effectiveAmount options ∧
        ((options.Messages.map c.perMsgLimit).sum < 2 ^ 64 →
          needed - ChainContext.effectiveAmount options ≤
            ⌈(c.effectiveGasPrice options).toRat *
                ((gasLimit + options.NondeterministicMessagesGas : Nat) : ℚ)⌉ +
              (options.Messages.length : Int)) := by
  refine ⟨_, _,
    ChainContext.ComputeNeededBalanceFromOptions_value c options hall h63 hN hdec hdecN hint,
    ChainContext.GasLimitByMsgs_perMsg c _ hall, ?_, ?_⟩
  all_goals
    have hmap : options.Messages.map
          (fun msg => ceilFee (c.effectiveGasPrice options) (c.perMsgLimit msg)) =
        (options.Messages.map c.perMsgLimit).map
          (fun (x : Nat) => -((-((c.effectiveGasPrice options).raw * (x : Int))) / 10 ^ 18)) := by
      rw [List.map_map]
      rfl
    obtain ⟨hlow, hup⟩ := sum_ceil_bounds (c.effectiveGasPrice options).raw
      (options.Messages.map c.perMsgLimit) options.NondeterministicMessagesGas
    rw [← hmap] at hlow hup
    rw [← ceilFee_eq_ceil]
    simp only [ceilFee] at hlow hup ⊢
  · have hle : (options.Messages.map c.perMsgLimit).sum % 2 ^ 64 ≤
        (options.Messages.map c.perMsgLimit).sum := Nat.mod_le _ _
    have hmono : (c.effectiveGasPrice options).raw *
          (((options.Messages.map c.perMsgLimit).sum % 2 ^ 64 +
            options.NondeterministicMessagesGas : Nat) : Int) ≤
        (c.effectiveGasPrice options).raw *
          ((options.NondeterministicMessagesGas +
            (options.Messages.map c.perMsgLimit).sum : Nat) : Int) := by
      apply mul_le_mul_of_nonneg_left _ hprice
      exact_mod_cast (by omega)
    generalize (c.effectiveGasPrice options).raw *
          (((options.Messages.map c.perMsgLimit).sum % 2 ^ 64 +
            options.NondeterministicMessagesGas : Nat) : Int) = a at *
    generalize (c.effectiveGasPrice options).raw *
          ((options.NondeterministicMessagesGas +
            (options.Messages.map c.perMsgLimit).sum : Nat) : Int) = b at *
    omega
  · intro hsum
    rw [Nat.mod_eq_of_lt hsum, List.length_map] at *
    rw [Nat.add_comm] at hup
    omega

/-- Witness of C16: messages of gas limit 1050 and 50, 10 gas of other messages
and the default gas price 0.0625. -/
theorem ComputeNeededBalanceFromOptions_overfunds_witness :
    ∃ (needed : Int) (gasLimit : Nat),
      exampleChain.ComputeNeededBalanceFromOptions exampleOptions = Outcome.value needed ∧
        exampleChain.GasLimitByMsgs exampleOptions.Messages = Outcome.value gasLimit ∧
        ⌈(exampleChain.effectiveGasPrice exampleOptions).toRat *
            ((gasLimit + exampleOptions.NondeterministicMessagesGas : Nat) : ℚ)⌉ ≤
          needed - ChainContext.effectiveAmount exampleOptions ∧
        ((exampleOptions.Messages.map exampleChain.perMsgLimit).sum < 2 ^ 64 →
          needed - ChainContext.effectiveAmount exampleOptions ≤
            ⌈(exampleChain.effectiveGasPrice exampleOptions).toRat *
                ((gasLimit + exampleOptions.NondeterministicMessagesGas : Nat) : ℚ)⌉ +
              (exampleOptions.Messages.length : Int)) :=
  ComputeNeededBalanceFromOptions_overfunds exampleChain exampleOptions (by decide) (by decide)
    (by decide) (by decide) (by decide) (by decide) (by decide)

/-- Counterexample to C16 as stated. Three registered messages of single gas
limit `2 ^ 63 - 1` and the gas price 1: every gas value is below `2 ^ 63`, the
64-bit sum `GasLimitByMsgs(m1, m2, m3)` is `2 ^ 63 - 3`, and the result
`3 * (2 ^ 63 - 1)` exceeds `ceil(GasPrice * GasLimitByMsgs(m1, m2, m3))` by
`2 ^ 64`, not by at most 3. One registered message of gas limit `2 ^ 62 + 50`
and the non-negative gas price `10 ^ 70`: the product leaves the range of the
decimals and the call panics, so there is no result to compare. -/
theorem ComputeNeededBalanceFromOptions_excess_unbounded :
    wrapChain.DeterministicGasConfig.AllRegistered wrapOptions.Messages ∧
      (∀ msg ∈ wrapOptions.Messages, wrapChain.perMsgLimit msg < 2 ^ 63) ∧
      wrapOptions.NondeterministicMessagesGas < 2 ^ 63 ∧
      0 ≤ (wrapChain.effectiveGasPrice wrapOptions).raw ∧
      wrapChain.ComputeNeededBalanceFromOptions wrapOptions =
        Outcome.value 27670116110564327421 ∧
      ChainContext.effectiveAmount wrapOptions = 0 ∧
      wrapChain.GasLimitByMsgs wrapOptions.Messages = Outcome.value 9223372036854775805 ∧
      ¬ ((27670116110564327421 : Int) - ChainContext.effectiveAmount wrapOptions ≤
        ⌈(wrapChain.effectiveGasPrice wrapOptions).toRat *
            ((9223372036854775805 + wrapOptions.NondeterministicMessagesGas : Nat) : ℚ)⌉ +
          (wrapOptions.Messages.length : Int)) ∧
      hugeChain.DeterministicGasConfig.AllRegistered hugePriceOptions.Messages ∧
      (∀ msg ∈ hugePriceOptions.Messages, hugeChain.perMsgLimit msg < 2 ^ 63) ∧
      hugePriceOptions.NondeterministicMessagesGas < 2 ^ 63 ∧
      0 ≤ (hugeChain.effectiveGasPrice hugePriceOptions).raw ∧
      hugeChain.ComputeNeededBalanceFromOptions hugePriceOptions =
        Outcome.panic "Int overflow" := by
  refine ⟨by decide, by decide, by decide, by decide, by decide, by decide, by decide, ?_,
    by decide, by decide, by decide, by decide, by decide⟩
  rw [← ceilFee_eq_ceil]
  decide

/-! ## Lemmas on printing and reading decimals -/

theorem digitValue_digitChar : ∀ k, k < 10 → digitValue (Nat.digitChar k) = some k := by
  decide

theorem parseDigits_append :
    ∀ (xs ys : List Char) (acc : Nat),
      parseDigits (xs ++ ys) acc =
        match parseDigits xs acc with
        | none => none
        | some v => parseDigits ys v := by
  intro xs
  induction xs with
  | nil => intro ys acc; rfl
  | cons c cs ih =>
    intro ys acc
    simp only [List.cons_append, parseDigits]
    cases digitValue c with
    | none => rfl
    | some d => exact ih ys _

theorem parseDigits_zeros :
    ∀ (k acc : Nat), parseDigits (List.replicate k '0') acc = some (acc * 10 ^ k) := by
  intro k
  induction k with
  | zero => intro acc; simp [parseDigits]
  | succ k ih =>
    intro acc
    have h0 : digitValue '0' = some 0 := by decide
    simp only [List.replicate_succ, parseDigits, h0, ih]
    congr 1
    ring

/-- What is read successfully consists of digits only. -/
theorem parseDigits_all_digits :
    ∀ (cs : List Char) (acc v : Nat), parseDigits cs acc = some v →
      ∀ c ∈ cs, digitValue c ≠ none := by
  intro cs
  induction cs with
  | nil => intro acc v _ c hc; simp at hc
  | cons x xs ih =>
    intro acc v h c hc
    simp only [parseDigits] at h
    rcases hx : digitValue x with _ | d
    · rw [hx] at h; simp at h
    · rw [hx] at h
      rcases List.mem_cons.mp hc with rfl | hmem
      · rw [hx]; simp
      · exact ih _ _ h c hmem

theorem toDigitsCore_append :
    ∀ (fuel n : Nat) (ds : List Char),
      Nat.toDigitsCore 10 fuel n ds = Nat.toDigitsCore 10 fuel n [] ++ ds := by
  intro fuel
  induction fuel with
  | zero => intro n ds; simp [Nat.toDigitsCore]
  | succ fuel ih =>
    intro n ds
    simp only [Nat.toDigitsCore]
    by_cases h : n / 10 = 0
    · simp [h]
    · simp only [h, if_false]
      rw [ih (n / 10) (Nat.digitChar (n % 10) :: ds), ih (n / 10) [Nat.digitChar (n % 10)]]
      simp

/-- Reading the printed digits of `n` onto an accumulator shifts it and adds `n`. -/
theorem parseDigits_toDigitsCore :
    ∀ (fuel n acc : Nat), n < fuel →
      parseDigits (Nat.toDigitsCore 10 fuel n []) acc =
        some (acc * 10 ^ (Nat.toDigitsCore 10 fuel n []).length + n) := by
  intro fuel
  induction fuel with
  | zero => intro n acc h; omega
  | succ fuel ih =>
    intro n acc hn
    simp only [Nat.toDigitsCore]
    have hd : digitValue (Nat.digitChar (n % 10)) = some (n % 10) :=
      digitValue_digitChar _ (Nat.mod_lt _ (by norm_num))
    by_cases h : n / 10 = 0
    · simp only [h, if_true, parseDigits, hd, List.length_singleton, pow_one]
      congr 1
      omega
    · simp only [h, if_false]
      rw [toDigitsCore_append fuel (n / 10) [Nat.digitChar (n % 10)], parseDigits_append,
        ih (n / 10) acc (by omega)]
      simp only [parseDigits, hd, List.length_append, List.length_singleton, pow_succ]
      congr 1
      have := Nat.div_add_mod n 10
      nlinarith [this]

theorem parseDigits_toDigits (n acc : Nat) :
    parseDigits (Nat.toDigits 10 n) acc =
      some (acc * 10 ^ (Nat.toDigits 10 n).length + n) :=
  parseDigits_toDigitsCore (n + 1) n acc (Nat.lt_succ_self n)

theorem toDigits_ne_nil (n : Nat) : Nat.toDigits 10 n ≠ [] := by
  unfold Nat.toDigits
  simp only [Nat.toDigitsCore]
  by_cases h : n / 10 = 0
  · simp [h]
  · simp only [h, if_false]
    rw [toDigitsCore_append]
    simp

theorem toDigits_all_digits (n : Nat) : ∀ c ∈ Nat.toDigits 10 n, digitValue c ≠ none :=
  parseDigits_all_digits _ 0 _ (parseDigits_toDigits n 0)

theorem toDigits_length_le (n : Nat) (h : n < 10 ^ 18) : (Nat.toDigits 10 n).length ≤ 18 :=
  Nat.toDigitsCore_length 10 (by norm_num) (n + 1) n 18 h (by norm_num)

theorem parseNat_toDigits (n : Nat) : parseNat (Nat.toDigits 10 n) = some n := by
  unfold parseNat
  rw [if_neg (toDigits_ne_nil n), parseDigits_toDigits]
  simp

theorem splitAtDot_digits :
    ∀ (xs rest : List Char), (∀ c ∈ xs, digitValue c ≠ none) →
      splitAtDot (xs ++ '.' :: rest) = (xs, some rest) := by
  intro xs
  induction xs with
  | nil => intro rest _; simp [splitAtDot]
  | cons x xs ih =>
    intro rest h
    have hx : x ≠ '.' := by
      intro hdot
      have := h x (List.mem_cons_self _ _)
      rw [hdot] at this
      exact this (by decide)
    have hrest := ih rest (fun c hc => h c (List.mem_cons_of_mem _ hc))
    simp only [List.cons_append, splitAtDot, hx, if_false, List.append_eq, hrest]

/-- The characters of the decimal string of a `Dec`. -/
theorem Dec.toString_data (d : Dec) :
    d.toString.data =
      (if d.raw < 0 then ['-'] else []) ++ Nat.toDigits 10 (d.raw.natAbs / 10 ^ 18) ++ ['.'] ++
        (List.replicate (18 - (Nat.toDigits 10 (d.raw.natAbs % 10 ^ 18)).length) '0' ++
          Nat.toDigits 10 (d.raw.natAbs % 10 ^ 18)) := by
  unfold Dec.toString Dec.fractionDigits
  simp only [Dec.Precision]
  by_cases h : d.raw < 0
  · simp [h, String.data_append]
  · simp [h, String.data_append]

/-- Reading a sign, digits, a dot and 18 digits. -/
theorem Dec.fromString_parts (neg : Bool) (qs fs : List Char) (a : Nat)
    (hq : ∀ c ∈ qs, digitValue c ≠ none) (hqne : qs ≠ []) (hf : fs.length = 18)
    (hparse : parseDigits (qs ++ fs) 0 = some a) :
    Dec.fromString (String.mk ((if neg = true then ['-'] else []) ++ qs ++ ['.'] ++ fs)) =
      some { raw := if neg = true then -(a : Int) else (a : Int) } := by
  have hsplit := splitAtDot_digits qs fs hq
  have hhead : ∀ rest : List Char, (qs ++ rest).head? ≠ some '-' := by
    intro rest
    rcases qs with _ | ⟨c, cs⟩
    · exact absurd rfl hqne
    · have hc := hq c (List.mem_cons_self _ _)
      simp only [List.cons_append, List.head?_cons, ne_eq, Option.some.injEq]
      intro hdash
      rw [hdash] at hc
      exact hc (by decide)
  have hcomb : parseNat (qs ++ fs ++ List.replicate (Dec.Precision - fs.length) '0') =
      some a := by
    have hne : qs ++ fs ++ List.replicate (Dec.Precision - fs.length) '0' ≠ [] := by
      intro h
      exact hqne (List.append_eq_nil.mp (List.append_eq_nil.mp h).1).1
    unfold parseNat
    rw [if_neg hne, hf]
    simp only [Dec.Precision, Nat.sub_self, List.replicate_zero, List.append_nil]
    exact hparse
  have hguard : ¬ (fs.length = 0 ∨ qs.length = 0 ∨ Dec.Precision < fs.length) := by
    have : qs.length ≠ 0 := fun h => hqne (List.length_eq_zero.mp h)
    simp only [Dec.Precision, hf]
    omega
  rw [List.append_assoc] at hcomb
  unfold Dec.fromString
  cases neg with
  | true =>
    simp only [if_true, List.cons_append, List.nil_append, List.head?_cons, List.tail_cons,
      List.append_assoc, List.singleton_append]
    rw [hsplit]
    simp only [if_neg hguard, hcomb]
  | false =>
    have hh := hhead (['.'] ++ fs)
    simp only [Bool.false_eq_true, if_false, List.nil_append, List.append_assoc,
      List.singleton_append] at hh ⊢
    simp only [hh, if_false]
    rw [hsplit]
    simp only [if_neg hguard, hcomb]

/-- Reading the decimal string of a `Dec` gives the `Dec` back. -/
theorem Dec.fromString_toString (d : Dec) : Dec.fromString d.toString = some d := by
  have hq := toDigits_all_digits (d.raw.natAbs / 10 ^ 18)
  have hqne := toDigits_ne_nil (d.raw.natAbs / 10 ^ 18)
  have hrlen := toDigits_length_le (d.raw.natAbs % 10 ^ 18) (Nat.mod_lt _ (by norm_num))
  have hfraclen : (List.replicate (18 - (Nat.toDigits 10 (d.raw.natAbs % 10 ^ 18)).length) '0' ++
      Nat.toDigits 10 (d.raw.natAbs % 10 ^ 18)).length = 18 := by
    simp only [List.length_append, List.length_replicate]
    omega
  have hparse : parseDigits (Nat.toDigits 10 (d.raw.natAbs / 10 ^ 18) ++
      (List.replicate (18 - (Nat.toDigits 10 (d.raw.natAbs % 10 ^ 18)).length) '0' ++
        Nat.toDigits 10 (d.raw.natAbs % 10 ^ 18))) 0 = some d.raw.natAbs := by
    simp only [parseDigits_append, parseDigits_toDigits, parseDigits_zeros, Nat.zero_mul,
      Nat.zero_add]
    congr 1
    rw [Nat.mul_assoc, ← pow_add]
    have : 18 - (Nat.toDigits 10 (d.raw.natAbs % 10 ^ 18)).length +
        (Nat.toDigits 10 (d.raw.natAbs % 10 ^ 18)).length = 18 := by omega
    rw [this]
    exact Nat.div_add_mod' _ _
  have hparts := Dec.fromString_parts (decide (d.raw < 0)) _ _ _ hq hqne hfraclen hparse
  have hstr : d.toString = String.mk ((if decide (d.raw < 0) = true then ['-'] else []) ++
      Nat.toDigits 10 (d.raw.natAbs / 10 ^ 18) ++ ['.'] ++
      (List.replicate (18 - (Nat.toDigits 10 (d.raw.natAbs % 10 ^ 18)).length) '0' ++
        Nat.toDigits 10 (d.raw.natAbs % 10 ^ 18))) := by
    have hdata := Dec.toString_data d
    have : d.toString = String.mk d.toString.data := rfl
    rw [this, hdata]
    simp only [decide_eq_true_eq]
  rw [hstr, hparts]
  congr 1
  cases d with
  | mk raw =>
    simp only [decide_eq_true_eq]
    congr 1
    by_cases h : raw < 0
    · rw [if_pos h]; omega
    · rw [if_neg h]; omega

/-- Decoding the JSON of a parameter value into a target of the same kind gives
the value back. -/
theorem ParamValue.unmarshalJSON_marshalJSON_dec (target d : Dec) :
    (ParamValue.dec target).unmarshalJSON (ParamValue.dec d).marshalJSON =
      some (ParamValue.dec d) := by
  unfold ParamValue.unmarshalJSON ParamValue.marshalJSON
  have hlast : (d.toString.data ++ [quoteChar]).getLast? = some quoteChar := by simp
  have hdrop : (d.toString.data ++ [quoteChar]).dropLast = d.toString.data := by simp
  simp only [List.singleton_append, List.cons_append, List.nil_append, hlast, hdrop,
    true_and, if_true]
  have : String.mk d.toString.data = d.toString := rfl
  rw [this, Dec.fromString_toString]
  rfl

theorem ParamValue.unmarshalJSON_marshalJSON_uint (target n : Nat) :
    (ParamValue.uint target).unmarshalJSON (ParamValue.uint n).marshalJSON =
      some (ParamValue.uint n) := by
  unfold ParamValue.unmarshalJSON ParamValue.marshalJSON
  simp only [parseNat_toDigits]
  rfl

/-! ## Claim on the parameters -/

/-- C11: parameters round-trip through the keeper over the parameter store of
`keeper_test.go`, which encodes each field as JSON on write and decodes it on
read: for every `Params`, whatever the store held before, `GetParams` after
`SetParams` returns the same `Params`, so `InitialGasPrice`,
`MaxGasPriceMultiplier`, `MaxDiscount` and `EscalationStartFraction` have
exactly the same decimal string and `MaxBlockGas`, `ShortEmaBlockLength` and
`LongEmaBlockLength` are equal; the stored JSON of a decimal is its 18-place
string in quotes. -/
theorem Params_roundtrip :
    (∀ (psm : paramSubspaceMock) (p : Params),
        Keeper.GetParams (Keeper.SetParams psm p) = some p) ∧
      (∀ (psm : paramSubspaceMock) (p : Params),
        ∃ q : Params, Keeper.GetParams (Keeper.SetParams psm p) = some q ∧
          q.Model.InitialGasPrice.toString = p.Model.InitialGasPrice.toString ∧
          q.Model.MaxGasPriceMultiplier.toString = p.Model.MaxGasPriceMultiplier.toString ∧
          q.Model.MaxDiscount.toString = p.Model.MaxDiscount.toString ∧
          q.Model.EscalationStartFraction.toString =
            p.Model.EscalationStartFraction.toString ∧
          q.Model.MaxBlockGas = p.Model.MaxBlockGas ∧
          q.Model.ShortEmaBlockLength = p.Model.ShortEmaBlockLength ∧
          q.Model.LongEmaBlockLength = p.Model.LongEmaBlockLength) ∧
      Keeper.GetParams (Keeper.SetParams newParamSubspaceMock exampleParams) =
        some exampleParams ∧
      exampleParams.Model.InitialGasPrice.toString = "0.062500000000000000" ∧
      (Keeper.SetParams newParamSubspaceMock exampleParams).params "InitialGasPrice" =
        some (String.mk ([quoteChar] ++ "0.062500000000000000".data ++ [quoteChar])) ∧
      (Keeper.SetParams newParamSubspaceMock exampleParams).params "MaxBlockGas" =
        some "50000000" := by
  have hround : ∀ (psm : paramSubspaceMock) (p : Params),
      Keeper.GetParams (Keeper.SetParams psm p) = some p := by
    intro psm p
    rcases p with ⟨⟨a, b, c, d, e, f, g⟩⟩
    simp [Keeper.GetParams, Keeper.SetParams, Params.ParamSetPairs, Params.zero,
      paramSubspaceMock.SetParamSet, paramSubspaceMock.GetParamSet, Function.update,
      ParamValue.unmarshalJSON_marshalJSON_dec, ParamValue.unmarshalJSON_marshalJSON_uint,
      Params.fromPairs]
  exact ⟨hround, fun psm p => ⟨p, hround psm p, rfl, rfl, rfl, rfl, rfl, rfl, rfl⟩,
    by decide, by decide, by decide, by decide⟩

end Coreum
